import Mathlib

/-!
Verification development for the terminal framebuffer core of
`termux-edit` (`src/crates/edit/src/framebuffer.rs`).

The Rust source is shallowly embedded below.  Machine integers are
modelled as `Nat`/`Int` (with explicit wrap-arounds where Rust wraps),
byte strings as `List Nat`, and the external collaborators that are not
part of the sources under verification (the `MeasurementConfig`
grapheme/width oracle, the Oklab color primitives, and the signed 2D
geometry helpers) are modelled from the specification; each such
definition is marked `Modelled from the spec:` in its doc comment.
Everything else is a direct functional translation of the Rust code.
-/

namespace EditFb

/-! ## Geometry (modelled from the spec, `helpers.rs` is not under `src/`) -/

/-- Modelled from the spec: integer 2D size with signed coordinates
(`helpers.rs::Size`, not under `src/`). -/
structure Size where
  width : Int
  height : Int
deriving DecidableEq, Repr

/-- Modelled from the spec: integer 2D point with signed coordinates
(`helpers.rs::Point`, not under `src/`). -/
structure Point where
  x : Int
  y : Int
deriving DecidableEq, Repr

/-- Modelled from the spec: integer rectangle with signed coordinates
(`helpers.rs::Rect`, not under `src/`). -/
structure Rect where
  left : Int
  top : Int
  right : Int
  bottom : Int
deriving DecidableEq, Repr

def Rect.height (r : Rect) : Int := r.bottom - r.top

/-- Modelled from the spec: a rectangle is empty when it has no interior
cells. -/
def Rect.isEmpty (r : Rect) : Bool := r.right ≤ r.left || r.bottom ≤ r.top

/-- Modelled from the spec: rectangle intersection by coordinate-wise
max/min. -/
def Rect.intersect (a b : Rect) : Rect :=
  ⟨max a.left b.left, max a.top b.top, min a.right b.right, min a.bottom b.bottom⟩

def Size.asRect (s : Size) : Rect := ⟨0, 0, s.width, s.height⟩

/-- Rust `i64::clamp(lo, hi)` on `Int` (callers maintain `lo ≤ hi`). -/
def iclamp (x lo hi : Int) : Int := max lo (min x hi)

/-! ## sRGB color words (modelled from the spec, `oklab.rs` is not under `src/`)

A color is a 32-bit word held in native byte order.  We model a
little-endian native machine, so the native word is
`a<<24 | b<<16 | g<<8 | r`. -/

def rgbaRed (c : Nat) : Nat := c % 256
def rgbaGreen (c : Nat) : Nat := c / 2 ^ 8 % 256
def rgbaBlue (c : Nat) : Nat := c / 2 ^ 16 % 256
def rgbaAlpha (c : Nat) : Nat := c / 2 ^ 24 % 256

/-- Modelled from the spec: `StraightRgba::from_le` (identity on a
little-endian machine, reduced to 32 bits). -/
def rgbaFromLE (x : Nat) : Nat := x % 2 ^ 32

/-- Modelled from the spec: `StraightRgba::from_be` (byte swap on a
little-endian machine). -/
def rgbaFromBE (x : Nat) : Nat :=
  (x % 256) * 2 ^ 24 + (x / 2 ^ 8 % 256) * 2 ^ 16 + (x / 2 ^ 16 % 256) * 2 ^ 8 + x / 2 ^ 24 % 256

/-- Modelled from the spec: Oklab lightness of an sRGB color (external
collaborator, out of scope in the spec).  Modelled as an integer luma
proxy on a 0..255 scale; the claims settled here depend only on it being
a fixed total function with `lightness(black) < lightness(white)`. -/
def lightnessL (c : Nat) : Nat :=
  (2126 * rgbaRed c + 7152 * rgbaGreen c + 722 * rgbaBlue c) / 10000

/-- Modelled from the spec: Oklab source-over alpha blend (external
collaborator, out of scope in the spec).  Modelled as straight
per-channel source-over with an opaque result; the claims settled here
do not depend on the exact blend arithmetic. -/
def oklabBlendM (dst src : Nat) : Nat :=
  let a := rgbaAlpha src
  let ch := fun d s => (s * a + d * (255 - a)) / 255
  ch (rgbaRed dst) (rgbaRed src) + ch (rgbaGreen dst) (rgbaGreen src) * 2 ^ 8
    + ch (rgbaBlue dst) (rgbaBlue src) * 2 ^ 16 + 255 * 2 ^ 24

/-! ## UTF-8 encoding and strict decoding -/

/-- UTF-8 encoding of a Unicode scalar value. -/
def utf8Encode (cp : Nat) : List Nat :=
  if cp < 0x80 then [cp]
  else if cp < 0x800 then [0xC0 + cp / 64, 0x80 + cp % 64]
  else if cp < 0x10000 then [0xE0 + cp / 4096, 0x80 + cp / 64 % 64, 0x80 + cp % 64]
  else [0xF0 + cp / 262144, 0x80 + cp / 4096 % 64, 0x80 + cp / 64 % 64, 0x80 + cp % 64]

def utf8EncodeAll (cps : List Nat) : List Nat := (cps.map utf8Encode).flatten

def contByte (b : Nat) : Bool := 0x80 ≤ b && b < 0xC0

/-- Strict UTF-8 decoder for one scalar: returns the code point and the
number of bytes consumed, rejecting overlong forms, surrogates and
out-of-range values. -/
def decodeOne : List Nat → Option (Nat × Nat)
  | [] => none
  | b0 :: rest =>
    if b0 < 0x80 then some (b0, 1)
    else if b0 < 0xC2 then none
    else if b0 < 0xE0 then
      match rest with
      | b1 :: _ => if contByte b1 then some ((b0 - 0xC0) * 64 + (b1 - 0x80), 2) else none
      | _ => none
    else if b0 < 0xF0 then
      match rest with
      | b1 :: b2 :: _ =>
        if contByte b1 && contByte b2 then
          let cp := (b0 - 0xE0) * 4096 + (b1 - 0x80) * 64 + (b2 - 0x80)
          if 0x800 ≤ cp && !(0xD800 ≤ cp && cp < 0xE000) then some (cp, 3) else none
        else none
      | _ => none
    else if b0 < 0xF5 then
      match rest with
      | b1 :: b2 :: b3 :: _ =>
        if contByte b1 && contByte b2 && contByte b3 then
          let cp := (b0 - 0xF0) * 262144 + (b1 - 0x80) * 4096 + (b2 - 0x80) * 64 + (b3 - 0x80)
          if 0x10000 ≤ cp && cp < 0x110000 then some (cp, 4) else none
        else none
      | _ => none
    else none

/-- Fuel-driven full decode; the fuel only bounds the loop (every step
consumes at least one byte, so `l.length` is always enough). -/
def decodeAllAux : Nat → List Nat → List Nat → Option (List Nat)
  | _, [], acc => some acc.reverse
  | 0, _ :: _, _ => none
  | f + 1, l, acc =>
    match decodeOne l with
    | none => none
    | some (cp, k) => decodeAllAux f (l.drop k) (cp :: acc)

def utf8DecodeAll (l : List Nat) : Option (List Nat) := decodeAllAux l.length l []

/-- A byte string is valid UTF-8 when the strict decoder accepts it. -/
def Utf8Valid (l : List Nat) : Bool := (utf8DecodeAll l).isSome

/-! ## The measurement oracle (modelled from the spec, `unicode.rs` is not
under `src/`) -/

/-- Modelled from the spec: wide (2-column) graphemes, approximated by the
usual East-Asian-wide blocks; in particular CJK Unified Ideographs are
wide and ASCII plus the block elements `U+2580..U+259F` are narrow. -/
def isWideM (cp : Nat) : Bool :=
  (0x1100 ≤ cp && cp < 0x1160) || (0x2E80 ≤ cp && cp < 0xA4D0)
    || (0xAC00 ≤ cp && cp < 0xD7A4) || (0xF900 ≤ cp && cp < 0xFB00)
    || (0xFF00 ≤ cp && cp < 0xFF61) || (0xFFE0 ≤ cp && cp < 0xFFE7)
    || (0x20000 ≤ cp && cp < 0x3FFFE)

/-- Modelled from the spec: terminal column width of a grapheme (1 for
most, 2 for wide characters); graphemes are modelled as single code
points. -/
def cpWidth (cp : Nat) : Nat := if isWideM cp then 2 else 1

/-- Modelled from the spec: the cursor of `MeasurementConfig`
(`unicode.rs`, not under `src/`): a byte offset into the measured bytes
together with its visual column and logical grapheme index. -/
structure MCursor where
  bytes : List Nat
  offset : Nat
  visual : Nat
  logical : Nat
deriving DecidableEq, Repr

def MCursor.new (bytes : List Nat) : MCursor := ⟨bytes, 0, 0, 0⟩

/-- Modelled from the spec: `goto_visual` walks graphemes forward while
the visual position is below the target, stopping before a wide grapheme
that would cross the target, so that `visual ≤ target` on return.  Fuel
bounds the loop; every step consumes at least one byte. -/
def gotoVisualAux : Nat → MCursor → Int → MCursor
  | 0, c, _ => c
  | f + 1, c, target =>
    if c.offset < c.bytes.length ∧ (c.visual : Int) < target then
      match decodeOne (c.bytes.drop c.offset) with
      | none => c
      | some (cp, k) =>
        if target < (c.visual : Int) + cpWidth cp then c
        else gotoVisualAux f ⟨c.bytes, c.offset + k, c.visual + cpWidth cp, c.logical + 1⟩ target
    else c

def MCursor.gotoVisual (c : MCursor) (target : Int) : MCursor :=
  gotoVisualAux (c.bytes.length + 1) c target

/-- Modelled from the spec: `goto_logical` advances by whole graphemes
until the logical index reaches the target. -/
def gotoLogicalAux : Nat → MCursor → Int → MCursor
  | 0, c, _ => c
  | f + 1, c, target =>
    if c.offset < c.bytes.length ∧ (c.logical : Int) < target then
      match decodeOne (c.bytes.drop c.offset) with
      | none => c
      | some (cp, k) =>
        gotoLogicalAux f ⟨c.bytes, c.offset + k, c.visual + cpWidth cp, c.logical + 1⟩ target
    else c

def MCursor.gotoLogical (c : MCursor) (target : Int) : MCursor :=
  gotoLogicalAux (c.bytes.length + 1) c target

/-- Total visual width of a byte string as reported by the measurement
oracle (sum of its graphemes' column widths). -/
def visualWidthAux : Nat → List Nat → Nat
  | 0, _ => 0
  | f + 1, l =>
    match decodeOne l with
    | none => 0
    | some (cp, k) => cpWidth cp + visualWidthAux f (l.drop k)

def visualWidth (l : List Nat) : Nat := visualWidthAux l.length l

/-! ## LineBuffer (`framebuffer.rs::LineBuffer`) -/

/-- One mutable UTF-8 string per row (`LineBuffer` in the source; the
strings are modelled as byte lists). -/
structure LineBuffer where
  lines : List (List Nat)
  size : Size
deriving DecidableEq, Repr

def LineBuffer.new (s : Size) : LineBuffer := ⟨List.replicate s.height.toNat [], s⟩

/-- `LineBuffer::fill_whitespace`: every row becomes exactly `width` ASCII
spaces (the capacity over-reservation in the source has no observable
effect on contents). -/
def LineBuffer.fill_whitespace (lb : LineBuffer) : LineBuffer :=
  ⟨lb.lines.map fun _ => List.replicate lb.size.width.toNat 32, lb.size⟩

/-- Left-clipping step of `replace_text` for a negative origin: walk the
text to column `-origin_x`, and when the walk stopped short inside a wide
glyph (with text remaining) step one further grapheme. -/
def rtLeftCfg (origin_x : Int) (text : List Nat) : MCursor :=
  if origin_x < 0 then
    let cur := (MCursor.new text).gotoVisual (-origin_x)
    if origin_x + (cur.visual : Int) < 0 ∧ cur.offset < text.length then
      cur.gotoLogical ((cur.logical : Int) + 1)
    else cur
  else MCursor.new text

/-- The effective insertion column `left` after left clipping
(`left += cursor.visual_pos.x` in the source). -/
def rtLeft (origin_x : Int) (text : List Nat) : Int :=
  if origin_x < 0 then origin_x + ((rtLeftCfg origin_x text).visual : Int) else origin_x

/-- Core of `LineBuffer::replace_text` acting on a single row.  This is a
direct functional translation of the source: the unsafe pointer splice at
the end writes `line[..res_old_beg.offset]`, `overlap_beg` spaces, the
measured span of `text`, `overlap_end` spaces, then
`line[res_old_end.offset..]`. -/
def replaceTextLine (width : Int) (line : List Nat) (origin_x clip_right0 : Int)
    (text : List Nat) : List Nat :=
  let clip_right := iclamp clip_right0 0 width
  let layout_width := clip_right - origin_x
  if layout_width ≤ 0 ∨ text = [] then line
  else
    let cfg1 := rtLeftCfg origin_x text
    let left := rtLeft origin_x text
    if left < 0 ∨ clip_right ≤ left then line
    else
      let beg_off := cfg1.offset
      let endc := cfg1.gotoVisual layout_width
      let right := left + (endc.visual : Int)
      let cfg_old := MCursor.new line
      let res_old_beg := cfg_old.gotoVisual left
      let res_old_end0 := res_old_beg.gotoVisual right
      let res_old_end :=
        if (res_old_end0.visual : Int) < right then
          res_old_end0.gotoLogical ((res_old_end0.logical : Int) + 1)
        else res_old_end0
      let src := (text.take endc.offset).drop beg_off
      let overlap_beg := (left - (res_old_beg.visual : Int)).toNat
      let overlap_end := ((res_old_end.visual : Int) - right).toNat
      line.take res_old_beg.offset ++ List.replicate overlap_beg 32 ++ src
        ++ List.replicate overlap_end 32 ++ line.drop res_old_end.offset

/-- `LineBuffer::replace_text`.  A negative `y` wraps to a huge `usize` in
the source, so `lines.get_mut` fails and the call is a no-op. -/
def LineBuffer.replace_text (lb : LineBuffer) (y origin_x clip_right : Int)
    (text : List Nat) : LineBuffer :=
  if y < 0 then lb
  else
    match lb.lines[y.toNat]? with
    | none => lb
    | some line =>
      ⟨lb.lines.set y.toNat (replaceTextLine lb.size.width line origin_x clip_right text),
        lb.size⟩

end EditFb

namespace EditFb

/-! ## Bitmap (`framebuffer.rs::Bitmap`) -/

/-- An sRGB bitmap: a width×height row-major array of color words. -/
structure Bitmap where
  data : List Nat
  size : Size
deriving DecidableEq, Repr

def Bitmap.new (s : Size) : Bitmap := ⟨List.replicate (s.width * s.height).toNat 0, s⟩

/-- `Bitmap::fill` (a `memset` over the whole array). -/
def Bitmap.fill (b : Bitmap) (color : Nat) : Bitmap :=
  ⟨List.replicate b.data.length color, b.size⟩

/-- Replace the span `[beg, fin)` of `l` by its image under `f`. -/
def mapSpan (l : List Nat) (beg fin : Nat) (f : Nat → Nat) : List Nat :=
  l.take beg ++ ((l.take fin).drop beg).map f ++ l.drop fin

/-- `Bitmap::blend`.  The source coalesces runs of equal cells so that
`oklab_blend` is computed once per run; since the blended value of a cell
depends only on that cell's value, this equals the per-cell map used
here (the spec calls the coalescing "a purely internal optimization with
no observable effect"). -/
def Bitmap.blend (b : Bitmap) (target : Rect) (color : Nat) : Bitmap :=
  if rgbaAlpha color = 0 then b
  else
    let t := target.intersect b.size.asRect
    if t.isEmpty then b
    else
      let stride := b.size.width.toNat
      let rowsIdx := List.range' t.top.toNat (t.bottom.toNat - t.top.toNat)
      let f : Nat → Nat :=
        if rgbaAlpha color = 255 then fun _ => color else fun cell => oklabBlendM cell color
      ⟨rowsIdx.foldl
        (fun d y => mapSpan d (y * stride + t.left.toNat) (y * stride + t.right.toNat) f)
        b.data, b.size⟩

/-- Row `y` of a bitmap (`chunks_exact(width)` in the source). -/
def Bitmap.row (b : Bitmap) (y : Nat) : List Nat :=
  (b.data.take ((y + 1) * b.size.width.toNat)).drop (y * b.size.width.toNat)

/-! ## Attributes (`framebuffer.rs::Attributes`, an 8-bit bitfield:
Italic = 1, Underlined = 2, All = 3) -/

/-- Stores VT attributes for the framebuffer (`AttributeBuffer`). -/
structure AttributeBuffer where
  data : List Nat
  size : Size
deriving DecidableEq, Repr

def AttributeBuffer.new (s : Size) : AttributeBuffer :=
  ⟨List.replicate (s.width * s.height).toNat 0, s⟩

def AttributeBuffer.resetAll (ab : AttributeBuffer) : AttributeBuffer :=
  ⟨List.replicate ab.data.length 0, ab.size⟩

/-- `AttributeBuffer::replace`: per cell `(cell & !mask) | attr`; when
`mask == All` the source degenerates to a `memset`, which coincides with
the per-cell formula only if `attr` has no bits outside `All`, so the
`memset` branch is kept explicit. -/
def AttributeBuffer.replace (ab : AttributeBuffer) (target : Rect) (mask attr : Nat) :
    AttributeBuffer :=
  let t := target.intersect ab.size.asRect
  if t.isEmpty then ab
  else
    let stride := ab.size.width.toNat
    let rowsIdx := List.range' t.top.toNat (t.bottom.toNat - t.top.toNat)
    let f : Nat → Nat :=
      if mask = 3 then fun _ => attr else fun a => a.land (255 ^^^ mask) ||| attr
    ⟨rowsIdx.foldl
      (fun d y => mapSpan d (y * stride + t.left.toNat) (y * stride + t.right.toNat) f)
      ab.data, ab.size⟩

def AttributeBuffer.row (ab : AttributeBuffer) (y : Nat) : List Nat :=
  (ab.data.take ((y + 1) * ab.size.width.toNat)).drop (y * ab.size.width.toNat)

/-! ## Cursor and Buffer -/

/-- Stores cursor position and type for the framebuffer. -/
structure Cursor where
  pos : Point
  overtype : Bool
deriving DecidableEq, Repr

/-- `Cursor::new_invalid` (`Point::MIN`, i.e. both coordinates
`CoordType::MIN = -2^31`). -/
def Cursor.newInvalid : Cursor := ⟨⟨-(2 ^ 31), -(2 ^ 31)⟩, false⟩

/-- `Cursor::new_disabled` (point `(-1, -1)`). -/
def Cursor.newDisabled : Cursor := ⟨⟨-1, -1⟩, false⟩

/-- `Cursor::default` (point `(0, 0)`). -/
def Cursor.defaultC : Cursor := ⟨⟨0, 0⟩, false⟩

/-- One of the two frame buffers: text, bg/fg bitmaps, attributes,
cursor. -/
structure Buffer where
  text : LineBuffer
  bg_bitmap : Bitmap
  fg_bitmap : Bitmap
  attributes : AttributeBuffer
  cursor : Cursor
deriving DecidableEq, Repr

def sizeZero : Size := ⟨0, 0⟩

/-- `Buffer::default()`: all grids empty with size 0, default cursor. -/
def Buffer.defaultB : Buffer :=
  ⟨⟨[], sizeZero⟩, ⟨[], sizeZero⟩, ⟨[], sizeZero⟩, ⟨[], sizeZero⟩, Cursor.defaultC⟩

/-! ## Span swap used by `Framebuffer::reverse` -/

def spanOf (l : List Nat) (beg fin : Nat) : List Nat := (l.take fin).drop beg

def writeSpan (l : List Nat) (beg : Nat) (s : List Nat) : List Nat :=
  l.take beg ++ s ++ l.drop (beg + s.length)

/-- `swap_with_slice` on the spans `[beg, fin)` of the two lists. -/
def swapSpan (p : List Nat × List Nat) (beg fin : Nat) : List Nat × List Nat :=
  (writeSpan p.1 beg (spanOf p.2 beg fin), writeSpan p.2 beg (spanOf p.1 beg fin))

/-- Buffer-level body of `Framebuffer::reverse`: clip the rectangle, then
swap the bg/fg spans row by row. -/
def Buffer.reverseRect (target : Rect) (b : Buffer) : Buffer :=
  let t := target.intersect b.bg_bitmap.size.asRect
  if t.isEmpty then b
  else
    let stride := b.bg_bitmap.size.width.toNat
    let rowsIdx := List.range' t.top.toNat (t.bottom.toNat - t.top.toNat)
    let p := rowsIdx.foldl
      (fun p y => swapSpan p (y * stride + t.left.toNat) (y * stride + t.right.toNat))
      (b.bg_bitmap.data, b.fg_bitmap.data)
    { b with bg_bitmap := { b.bg_bitmap with data := p.1 },
             fg_bitmap := { b.fg_bitmap with data := p.2 } }

/-! ## Framebuffer state -/

/-- The default 18-color palette (`DEFAULT_THEME`), as native color
words. -/
def DEFAULT_THEME : List Nat :=
  [rgbaFromBE 0x000000ff, rgbaFromBE 0xbe2c21ff, rgbaFromBE 0x3fae3aff, rgbaFromBE 0xbe9a4aff,
   rgbaFromBE 0x204dbeff, rgbaFromBE 0xbb54beff, rgbaFromBE 0x00a7b2ff, rgbaFromBE 0xbebebeff,
   rgbaFromBE 0x808080ff, rgbaFromBE 0xff3e30ff, rgbaFromBE 0x58ea51ff, rgbaFromBE 0xffc944ff,
   rgbaFromBE 0x2f6affff, rgbaFromBE 0xfc74ffff, rgbaFromBE 0x00e1f0ff, rgbaFromBE 0xffffffff,
   rgbaFromBE 0x000000ff, rgbaFromBE 0xbebebeff]

/-- The framebuffer.  `auto_color_threshold` is on the integer lightness
scale of `lightnessL` (the source's `0.5` is `128` here); the `Cell`-based
contrast cache is modelled as a plain list updated by an explicit step
function. -/
structure Framebuffer where
  indexed_colors : List Nat
  buffers : Buffer × Buffer
  frame_counter : Nat
  auto_colors : Nat × Nat
  auto_color_threshold : Nat
  contrast_colors : List (Nat × Nat)
  background_fill : Nat
  foreground_fill : Nat
  disable_true_color : Bool
deriving DecidableEq, Repr

/-- Select the buffer with index `i & 1` (`buffers[i & 1]`). -/
def selBuf (p : Buffer × Buffer) (i : Nat) : Buffer := if i % 2 = 0 then p.1 else p.2

def setBuf (p : Buffer × Buffer) (i : Nat) (b : Buffer) : Buffer × Buffer :=
  if i % 2 = 0 then (b, p.2) else (p.1, b)

def Framebuffer.backIdx (fb : Framebuffer) : Nat := fb.frame_counter % 2

/-- The buffer being drawn into (`buffers[frame_counter & 1]`). -/
def Framebuffer.backBuf (fb : Framebuffer) : Buffer := selBuf fb.buffers fb.backIdx

/-- The buffer most recently displayed (`buffers[1 - (frame_counter & 1)]`). -/
def Framebuffer.frontBuf (fb : Framebuffer) : Buffer := selBuf fb.buffers (1 - fb.backIdx)

/-- Apply a mutation to the back buffer, as the drawing methods do. -/
def modifyBack (fb : Framebuffer) (f : Buffer → Buffer) : Framebuffer :=
  { fb with buffers := setBuf fb.buffers fb.backIdx (f fb.backBuf) }

/-- `Framebuffer::new`. -/
def Framebuffer.new : Framebuffer :=
  { indexed_colors := DEFAULT_THEME
    buffers := (Buffer.defaultB, Buffer.defaultB)
    frame_counter := 0
    auto_colors := (DEFAULT_THEME.getD 0 0, DEFAULT_THEME.getD 15 0)
    auto_color_threshold := 128
    contrast_colors := List.replicate 256 (0, 0)
    background_fill := DEFAULT_THEME.getD 16 0
    foreground_fill := DEFAULT_THEME.getD 17 0
    disable_true_color := false }

def Framebuffer.set_disable_true_color (fb : Framebuffer) (disable : Bool) : Framebuffer :=
  { fb with disable_true_color := disable }

/-- `Framebuffer::set_indexed_colors`: install the palette, zero both
fills, recompute `auto_colors` from Black/BrightWhite with the midpoint
threshold, and swap so that `auto_colors.1` is the darker one. -/
def Framebuffer.set_indexed_colors (fb : Framebuffer) (colors : List Nat) : Framebuffer :=
  let ac := (colors.getD 0 0, colors.getD 15 0)
  let l0 := lightnessL ac.1
  let l1 := lightnessL ac.2
  let threshold := (l0 + l1) / 2
  let ac := if l1 < l0 then (ac.2, ac.1) else ac
  { fb with indexed_colors := colors, background_fill := 0, foreground_fill := 0,
            auto_colors := ac, auto_color_threshold := threshold }

/-- The grid rebuild done by `flip` on a size change (the cursor is kept;
only the four grids are recreated). -/
def rebuildGrids (b : Buffer) (s : Size) : Buffer :=
  { text := LineBuffer.new s, bg_bitmap := Bitmap.new s, fg_bitmap := Bitmap.new s,
    attributes := AttributeBuffer.new s, cursor := b.cursor }

/-- The full-redraw poison applied to the front buffer on a size change:
fill its fg bitmap with `from_le(1)` and invalidate its cursor. -/
def poisonFront (b : Buffer) : Buffer :=
  { b with fg_bitmap := b.fg_bitmap.fill (rgbaFromLE 1), cursor := Cursor.newInvalid }

/-- The per-frame priming of the new back buffer done by `flip`. -/
def primeBuffer (bgf fgf : Nat) (b : Buffer) : Buffer :=
  { text := b.text.fill_whitespace, bg_bitmap := b.bg_bitmap.fill bgf,
    fg_bitmap := b.fg_bitmap.fill fgf, attributes := b.attributes.resetAll,
    cursor := Cursor.newDisabled }

/-- The resize step of `Framebuffer::flip`: when the requested size
differs from `buffers[0]`'s, rebuild the grids of both buffers, poison
the (post-increment) front buffer's fg bitmap and invalidate its cursor
to force a full redraw. -/
def flipPre (fb : Framebuffer) (size : Size) : Framebuffer :=
  if size ≠ fb.buffers.1.bg_bitmap.size then
    let bufs := (rebuildGrids fb.buffers.1 size, rebuildGrids fb.buffers.2 size)
    let idx := fb.frame_counter % 2
    { fb with buffers := setBuf bufs idx (poisonFront (selBuf bufs idx)) }
  else fb

/-- `Framebuffer::flip`: optionally resize, increment the frame counter,
then prime the new back buffer. -/
def Framebuffer.flip (fb : Framebuffer) (size : Size) : Framebuffer :=
  let fb1 := flipPre fb size
  modifyBack { fb1 with frame_counter := fb1.frame_counter + 1 }
    (primeBuffer fb1.background_fill fb1.foreground_fill)

/-! ## Drawing methods -/

def Framebuffer.replace_text (fb : Framebuffer) (y origin_x clip_right : Int)
    (text : List Nat) : Framebuffer :=
  modifyBack fb fun b => { b with text := b.text.replace_text y origin_x clip_right text }

def Framebuffer.blend_bg (fb : Framebuffer) (target : Rect) (bg : Nat) : Framebuffer :=
  modifyBack fb fun b => { b with bg_bitmap := b.bg_bitmap.blend target bg }

def Framebuffer.blend_fg (fb : Framebuffer) (target : Rect) (fg : Nat) : Framebuffer :=
  modifyBack fb fun b => { b with fg_bitmap := b.fg_bitmap.blend target fg }

def Framebuffer.reverse (fb : Framebuffer) (target : Rect) : Framebuffer :=
  modifyBack fb (Buffer.reverseRect target)

def Framebuffer.replace_attr (fb : Framebuffer) (target : Rect) (mask attr : Nat) :
    Framebuffer :=
  modifyBack fb fun b => { b with attributes := b.attributes.replace target mask attr }

def Framebuffer.set_cursor (fb : Framebuffer) (p : Point) (overtype : Bool) : Framebuffer :=
  modifyBack fb fun b => { b with cursor := ⟨p, overtype⟩ }

/-- `Framebuffer::indexed`: palette lookup. -/
def Framebuffer.indexed (fb : Framebuffer) (i : Nat) : Nat := fb.indexed_colors.getD i 0

/-! ## Contrast cache (`Framebuffer::contrasted`) -/

/-- The cache index: `(color * HASH_MULTIPLIER) >> 56` on a 64-bit
machine, with Knuth's MMIX multiplier. -/
def hashIdx (color : Nat) : Nat := color * 6364136223846793005 % 2 ^ 64 / 2 ^ 56

/-- The slow path value: `auto_colors[is_dark as usize]` with
`is_dark = lightness(color) < auto_color_threshold`. -/
def Framebuffer.contrasted_slow_value (fb : Framebuffer) (color : Nat) : Nat :=
  if lightnessL color < fb.auto_color_threshold then fb.auto_colors.2 else fb.auto_colors.1

/-- The value returned by `Framebuffer::contrasted`: the cached value on a
key hit, the slow path value otherwise. -/
def Framebuffer.contrasted_value (fb : Framebuffer) (color : Nat) : Nat :=
  let slot := fb.contrast_colors.getD (hashIdx color) (0, 0)
  if slot.1 = color then slot.2 else fb.contrasted_slow_value color

/-- The cache update performed by `Framebuffer::contrasted` through the
`Cell`s: on a miss the slow path stores `(color, value)` into the slot. -/
def Framebuffer.contrasted_step (fb : Framebuffer) (color : Nat) : Framebuffer :=
  let slot := fb.contrast_colors.getD (hashIdx color) (0, 0)
  if slot.1 = color then fb
  else
    { fb with contrast_colors :=
        fb.contrast_colors.set (hashIdx color) (color, fb.contrasted_slow_value color) }

/-! ## Scrollbar (`Framebuffer::draw_scrollbar`)

The integer arithmetic works in 1/8th-row units; Rust's `i64` `/` and `%`
round toward zero, so they are modelled by `Int.tdiv` / `Int.tmod`. -/

def sbThumbHeight (track : Rect) (content_height : Int) : Int :=
  let vh := track.height * 8
  let ch := max content_height track.height * 8
  max (Int.tdiv (vh * vh + Int.tdiv ch 2) ch) 8

def sbThumbTopRel (track : Rect) (content_offset content_height : Int) : Int :=
  let vh := track.height * 8
  let chm := max content_height track.height
  let com := (chm - track.height) * 8
  let co := iclamp content_offset 0 (chm - track.height) * 8
  let th := sbThumbHeight track content_height
  Int.tdiv ((vh - th) * co + Int.tdiv com 2) com

def sbThumbTopAbs (clip track : Rect) (content_offset content_height : Int) : Int :=
  max (sbThumbTopRel track content_offset content_height + track.top * 8)
    ((track.intersect clip).top * 8)

def sbThumbBottomAbs (clip track : Rect) (content_offset content_height : Int) : Int :=
  min (sbThumbTopRel track content_offset content_height + sbThumbHeight track content_height
        + track.top * 8)
    ((track.intersect clip).bottom * 8)

def sbTopFract (clip track : Rect) (content_offset content_height : Int) : Int :=
  Int.tmod (sbThumbTopAbs clip track content_offset content_height) 8

def sbBottomFract (clip track : Rect) (content_offset content_height : Int) : Int :=
  Int.tmod (sbThumbBottomAbs clip track content_offset content_height) 8

def sbTopRow (clip track : Rect) (content_offset content_height : Int) : Int :=
  Int.tdiv (sbThumbTopAbs clip track content_offset content_height + 7) 8

def sbBottomRow (clip track : Rect) (content_offset content_height : Int) : Int :=
  Int.tdiv (sbThumbBottomAbs clip track content_offset content_height) 8

def intRange (a b : Int) : List Int := (List.range (b - a).toNat).map fun k => a + k

/-- The effect of `draw_scrollbar` on the back buffer, as a function of
the palette and the buffer alone (used to state that the drawing methods
read nothing else). -/
def scrollbarBack (colors : List Nat) (clip_rect track : Rect)
    (content_offset content_height : Int) (b : Buffer) : Buffer :=
  let track_clipped := track.intersect clip_rect
  if track_clipped.isEmpty then b
  else
    let viewport_height := track.height
    let ch := max content_height viewport_height
    if ch - viewport_height = 0 then b
    else
      let thumb_top := sbTopRow clip_rect track content_offset content_height
      let thumb_bottom := sbBottomRow clip_rect track content_offset content_height
      let top_fract := sbTopFract clip_rect track content_offset content_height
      let bottom_fract := sbBottomFract clip_rect track content_offset content_height
      let b := { b with bg_bitmap := b.bg_bitmap.blend track_clipped (colors.getD 8 0) }
      let b := { b with fg_bitmap := b.fg_bitmap.blend track_clipped (colors.getD 15 0) }
      let b := (intRange thumb_top thumb_bottom).foldl
        (fun b y =>
          let t := b.text.replace_text y track_clipped.left track_clipped.right
            [0xE2, 0x96, 0x88]
          { b with text := t }) b
      let b :=
        if top_fract ≠ 0 then
          let t := b.text.replace_text (thumb_top - 1) track_clipped.left
            track_clipped.right [0xE2, 0x96, (0x88 - top_fract).toNat]
          { b with text := t }
        else b
      let b :=
        if bottom_fract ≠ 0 then
          let t := b.text.replace_text thumb_bottom track_clipped.left
            track_clipped.right [0xE2, 0x96, (0x88 - bottom_fract).toNat]
          let b := { b with text := t }
          let rect : Rect :=
            ⟨track_clipped.left, thumb_bottom, track_clipped.right, thumb_bottom + 1⟩
          let b := { b with bg_bitmap := b.bg_bitmap.blend rect (colors.getD 15 0) }
          { b with fg_bitmap := b.fg_bitmap.blend rect (colors.getD 8 0) }
        else b
      b

/-- `Framebuffer::draw_scrollbar`.  The source issues a chain of
`self.blend_bg` / `self.blend_fg` / `self.replace_text` calls; each acts
only on the back buffer and reads only the (unchanged) palette, so the
chain is the single back-buffer modification `scrollbarBack` above.
Returns the updated framebuffer and the whole-row thumb height
`(thumb_height + 4) / 8`. -/
def Framebuffer.draw_scrollbar (fb : Framebuffer) (clip_rect track : Rect)
    (content_offset content_height : Int) : Framebuffer × Int :=
  let track_clipped := track.intersect clip_rect
  if track_clipped.isEmpty then (fb, 0)
  else
    let viewport_height := track.height
    let ch := max content_height viewport_height
    if ch - viewport_height = 0 then (fb, 0)
    else
      (modifyBack fb (scrollbarBack fb.indexed_colors clip_rect track content_offset
          content_height),
        Int.tdiv (sbThumbHeight track content_height + 4) 8)

/-! ## VT serialization (`Framebuffer::format_color` and
`Framebuffer::render`).  The output byte string is a `List Nat`. -/

/-- Decimal digits of a number as ASCII bytes (fuel-driven; `n + 1` fuel
always suffices). -/
def natDecAux : Nat → Nat → List Nat → List Nat
  | 0, _, acc => acc
  | f + 1, n, acc =>
    let acc := (48 + n % 10) :: acc
    if n < 10 then acc else natDecAux f (n / 10) acc

def natDec (n : Nat) : List Nat := natDecAux (n + 1) n []

/-- `Framebuffer::format_color`: the bytes appended to the output for one
color change on side `fg` (`true` = foreground `3…`, `false` =
background `4…`). -/
def Framebuffer.format_color (fb : Framebuffer) (fg : Bool) (color0 : Nat) : List Nat :=
  let typ : Nat := if fg then 51 else 52
  if color0 = 0 then [27, 91, typ, 57, 109]
  else
    let color :=
      if rgbaAlpha color0 ≠ 255 then
        oklabBlendM (fb.indexed (if fg then 17 else 16)) color0
      else color0
    let r := rgbaRed color
    let g := rgbaGreen color
    let b := rgbaBlue color
    if fb.disable_true_color then
      let ri := min (r * 6 / 256) 5
      let gi := min (g * 6 / 256) 5
      let bi := min (b * 6 / 256) 5
      [27, 91, typ, 56, 59, 53, 59] ++ natDec (16 + ri * 36 + gi * 6 + bi) ++ [109]
    else
      [27, 91, typ, 56, 59, 50, 59] ++ natDec r ++ [59] ++ natDec g ++ [59] ++ natDec b
        ++ [109]

/-- Serialization state of the render pass: output bytes plus the
last-emitted bg/fg (`u64::MAX` sentinel initially) and attributes. -/
structure RenderSt where
  out : List Nat
  last_bg : Nat
  last_fg : Nat
  last_attr : Nat
deriving DecidableEq, Repr

/-- The inner chunking loop of `render`: advance `chunk_end` while the
`(bg, fg, attr)` triple stays the same. -/
def findRunEnd : Nat → List Nat → List Nat → List Nat → Nat → Nat → Nat → Nat → Nat
  | 0, _, _, _, _, _, _, pos => pos
  | f + 1, bgR, fgR, atR, bg, fg, attr, pos =>
    if pos < bgR.length ∧ bgR.getD pos 0 = bg ∧ fgR.getD pos 0 = fg ∧ atR.getD pos 0 = attr
    then findRunEnd f bgR fgR atR bg fg attr (pos + 1)
    else pos

/-- The per-row run loop of `render`: for each run emit bg, fg, attribute
changes and then the run's bytes of the back row (located with the
measurement oracle).  Fuel bounds the loop; `chunk_end` grows by at least
one per iteration. -/
def renderRunsAux (fb : Framebuffer) :
    Nat → List Nat → List Nat → List Nat → List Nat → MCursor → Nat → RenderSt → RenderSt
  | 0, _, _, _, _, _, _, st => st
  | f + 1, line, bgR, fgR, atR, cfg, pos, st =>
    let bg := bgR.getD pos 0
    let fg := fgR.getD pos 0
    let attr := atR.getD pos 0
    let chunk_end := findRunEnd (bgR.length + 1) bgR fgR atR bg fg attr (pos + 1)
    let st :=
      if st.last_bg ≠ bg then
        { st with out := st.out ++ fb.format_color false bg, last_bg := bg }
      else st
    let st :=
      if st.last_fg ≠ fg then
        { st with out := st.out ++ fb.format_color true fg, last_fg := fg }
      else st
    let st :=
      if st.last_attr ≠ attr then
        let diff := st.last_attr ^^^ attr
        let st :=
          if diff.testBit 0 then
            { st with out := st.out ++ if attr.testBit 0 then [27, 91, 51, 109]
                else [27, 91, 50, 51, 109] }
          else st
        let st :=
          if diff.testBit 1 then
            { st with out := st.out ++ if attr.testBit 1 then [27, 91, 52, 109]
                else [27, 91, 50, 52, 109] }
          else st
        { st with last_attr := attr }
      else st
    let beg := cfg.offset
    let cfg2 := cfg.gotoVisual (chunk_end : Int)
    let st := { st with out := st.out ++ (line.take cfg2.offset).drop beg }
    if chunk_end < bgR.length then renderRunsAux fb f line bgR fgR atR cfg2 chunk_end st
    else st

/-- One row of the render pass.  A row whose text, bg, fg and attributes
all equal the front row's is skipped.  The source enters its run loop as
a do-while that indexes `row[0]` unconditionally; a zero-width row is
never dirty (both rows are empty), so guarding the loop on a nonempty row
is equivalent on reachable states. -/
def renderRow (fb : Framebuffer) (front back : Buffer) (st : RenderSt) (y : Nat) : RenderSt :=
  let front_line := front.text.lines.getD y []
  let back_line := back.text.lines.getD y []
  let front_bg := front.bg_bitmap.row y
  let front_fg := front.fg_bitmap.row y
  let front_attr := front.attributes.row y
  let back_bg := back.bg_bitmap.row y
  let back_fg := back.fg_bitmap.row y
  let back_attr := back.attributes.row y
  if front_line = back_line ∧ front_bg = back_bg ∧ front_fg = back_fg
      ∧ front_attr = back_attr then st
  else
    let st := if st.out = [] then { st with out := [27, 91, 109] } else st
    let st := { st with out := st.out ++ [27, 91] ++ natDec (y + 1) ++ [59, 49, 72] }
    if back_bg.length = 0 then st
    else renderRunsAux fb (back_bg.length + 1) back_line back_bg back_fg back_attr
      (MCursor.new back_line) 0 st

/-- `Framebuffer::render`: diff the back buffer against the front buffer
row by row, then emit the cursor sequences when anything was written or
the cursor changed. -/
def Framebuffer.render (fb : Framebuffer) : List Nat :=
  let back := fb.backBuf
  let front := fb.frontBuf
  let st := (List.range front.text.size.height.toNat).foldl (renderRow fb front back)
    ⟨[], 2 ^ 64 - 1, 2 ^ 64 - 1, 0⟩
  let result := st.out
  if result ≠ [] ∨ back.cursor ≠ front.cursor then
    if 0 ≤ back.cursor.pos.x ∧ 0 ≤ back.cursor.pos.y then
      result ++ [27, 91] ++ natDec (back.cursor.pos.y + 1).toNat ++ [59]
        ++ natDec (back.cursor.pos.x + 1).toNat ++ [72]
        ++ [27, 91, if back.cursor.overtype then 49 else 53, 32, 113]
        ++ [27, 91, 63, 50, 53, 104]
    else result ++ [27, 91, 63, 50, 53, 108]
  else result

/-! ## Draw operations and well-formedness -/

/-- The drawing operations a client may issue between `flip` and
`render`. -/
inductive DrawOp
  | text (y origin_x clip_right : Int) (t : List Nat)
  | bg (r : Rect) (c : Nat)
  | fg (r : Rect) (c : Nat)
  | rev (r : Rect)
  | attr (r : Rect) (mask a : Nat)
  | cursor (p : Point) (overtype : Bool)
  | scrollbar (clip track : Rect) (offset height : Int)
deriving DecidableEq, Repr

def applyOp (fb : Framebuffer) : DrawOp → Framebuffer
  | .text y ox cr t => fb.replace_text y ox cr t
  | .bg r c => fb.blend_bg r c
  | .fg r c => fb.blend_fg r c
  | .rev r => fb.reverse r
  | .attr r m a => fb.replace_attr r m a
  | .cursor p o => fb.set_cursor p o
  | .scrollbar cl tr o h => (fb.draw_scrollbar cl tr o h).1

def applyOps (fb : Framebuffer) (ops : List DrawOp) : Framebuffer := ops.foldl applyOp fb

def Size.cells (s : Size) : Nat := (s.width * s.height).toNat

/-- Structural well-formedness of a buffer: the four grids share one size
and their backing arrays have the corresponding lengths. -/
def Buffer.WF (b : Buffer) : Prop :=
  b.text.lines.length = b.text.size.height.toNat ∧ b.text.size = b.bg_bitmap.size
    ∧ b.bg_bitmap.size = b.fg_bitmap.size ∧ b.fg_bitmap.size = b.attributes.size
    ∧ b.bg_bitmap.data.length = b.bg_bitmap.size.cells
    ∧ b.fg_bitmap.data.length = b.fg_bitmap.size.cells
    ∧ b.attributes.data.length = b.attributes.size.cells

instance (b : Buffer) : Decidable b.WF := by unfold Buffer.WF; infer_instance

/-- Well-formedness of the framebuffer: both buffers are well-formed and
share one size. -/
def Framebuffer.WF (fb : Framebuffer) : Prop :=
  fb.buffers.1.WF ∧ fb.buffers.2.WF
    ∧ fb.buffers.1.bg_bitmap.size = fb.buffers.2.bg_bitmap.size

instance (fb : Framebuffer) : Decidable fb.WF := by unfold Framebuffer.WF; infer_instance

end EditFb
namespace EditFb

/-! ## Auxiliary definitions for the theorems below -/

/-- The shape of a buffer: everything the per-frame priming of `flip`
depends on (grid sizes and backing-array lengths). -/
def Buffer.shape (b : Buffer) : Nat × Size × Nat × Size × Nat × Size × Nat × Size :=
  (b.text.lines.length, b.text.size, b.bg_bitmap.data.length, b.bg_bitmap.size,
   b.fg_bitmap.data.length, b.fg_bitmap.size, b.attributes.data.length, b.attributes.size)

/-- The cache states reachable from a framebuffer by a sequence of
`contrasted` queries (the palette is not changed along the way). -/
inductive ContrastReachable (fb0 : Framebuffer) : Framebuffer → Prop
  | refl : ContrastReachable fb0 fb0
  | step (color : Nat) {fb : Framebuffer} :
      ContrastReachable fb0 fb → ContrastReachable fb0 (fb.contrasted_step color)

/-- Every cache slot is either still zero-initialized or holds a
key/value pair written by the slow path. -/
def CacheOK (fb : Framebuffer) : Prop :=
  ∀ s ∈ fb.contrast_colors, s = (0, 0) ∨ s.2 = fb.contrasted_slow_value s.1
/-- The row-by-row span swap of `Framebuffer::reverse` over a list of row
indices. -/
def swapRows (stride left right : Nat) (rows : List Nat) (p : List Nat × List Nat) :
    List Nat × List Nat :=
  rows.foldl (fun p y => swapSpan p (y * stride + left) (y * stride + right)) p
/-- The back-buffer effect of one drawing operation, as a function of the
palette and the back buffer alone. -/
def opBack (colors : List Nat) : DrawOp → Buffer → Buffer
  | .text y a b t, bu => { bu with text := bu.text.replace_text y a b t }
  | .bg r c, bu => { bu with bg_bitmap := bu.bg_bitmap.blend r c }
  | .fg r c, bu => { bu with fg_bitmap := bu.fg_bitmap.blend r c }
  | .rev r, bu => Buffer.reverseRect r bu
  | .attr r m a, bu => { bu with attributes := bu.attributes.replace r m a }
  | .cursor p o, bu => { bu with cursor := ⟨p, o⟩ }
  | .scrollbar cl tr o h, bu => scrollbarBack colors cl tr o h bu

end EditFb

namespace EditFb

/-! ## Claim C1 -/

/-- Claim C1 (code bug evidence): the row-width invariant of the
specification fails on the code.  On a 1×1 whitespace-filled buffer, the
single call `replace_text(0, -1, 1, "A")` — with valid UTF-8 text —
leaves the row empty, so its total visual width is 0 instead of the
buffer width 1.  The negative-origin path adds the absolute visual
position `end.visual_pos.x` of the measurement cursor to `left`, which
double-counts the columns already consumed by the left-clipping walk, so
the splice deletes row bytes without replacing them. -/
theorem C1_width_invariant_failing_eval :
    Utf8Valid [65] = true
      ∧ (((LineBuffer.new ⟨1, 1⟩).fill_whitespace).replace_text 0 (-1) 1 [65]).lines = [[]]
      ∧ visualWidth
          ((((LineBuffer.new ⟨1, 1⟩).fill_whitespace).replace_text 0 (-1) 1
            [65]).lines.getD 0 []) = 0 := by
  decide

/-! ## Claim C3 -/

/-- Claim C3 (counterexample): after `replace_text(0, 0, 2, "你")` and
`replace_text(0, 1, 6, "Z")` on a 6-wide, 1-high whitespace-filled
buffer, the row is not the claimed `" Z   "` (one space, `Z`, three
spaces — which would have visual width 5, contradicting the claim's own
"total visual width 6"). -/
theorem C3_row_literal_counterexample :
    ¬ (((((LineBuffer.new ⟨6, 1⟩).fill_whitespace).replace_text 0 0 2
          [0xE4, 0xBD, 0xA0]).replace_text 0 1 6 [90]).lines = [[32, 90, 32, 32, 32]]) := by
  decide

/-- Claim C3 (amended): on a 6-wide, 1-high whitespace-filled buffer,
`replace_text(0, 0, 2, "你")` yields the row `"你    "` (the wide glyph
and four spaces, width 6); the subsequent `replace_text(0, 1, 6, "Z")`
starts inside the wide glyph (the row cursor for column 1 stops at
visual column 0, so `overlap_beg = 1` padding space is inserted before
`Z`) and yields `" Z    "` — one space, `Z`, then four spaces — with
total visual width 6. -/
theorem C3_wide_glyph_split_amended :
    (((LineBuffer.new ⟨6, 1⟩).fill_whitespace).replace_text 0 0 2
        [0xE4, 0xBD, 0xA0]).lines = [[0xE4, 0xBD, 0xA0, 32, 32, 32, 32]]
      ∧ visualWidth [0xE4, 0xBD, 0xA0, 32, 32, 32, 32] = 6
      ∧ ((MCursor.new [0xE4, 0xBD, 0xA0, 32, 32, 32, 32]).gotoVisual 1).visual = 0
      ∧ ((((LineBuffer.new ⟨6, 1⟩).fill_whitespace).replace_text 0 0 2
          [0xE4, 0xBD, 0xA0]).replace_text 0 1 6 [90]).lines = [[32, 90, 32, 32, 32, 32]]
      ∧ visualWidth [32, 90, 32, 32, 32, 32] = 6 := by
  decide

/-! ## Claim C5 -/

/-- Claim C5: for the track rectangle `{0, 0, 1, 20}` fully inside the
clip rectangle, `content_offset = 0` and `content_height = 1000`,
`draw_scrollbar` clamps the thumb height to the one-row minimum of 8
eighth-units, places the thumb top at row 0 (bottom at row 1, with no
fractional cells), writes the full-block glyph `█` exactly on the row
range `[0, 1)` of a 1×20 back buffer (every other row keeps its primed
single space), and returns 1. -/
theorem C5_scrollbar_minimum_thumb :
    sbThumbHeight ⟨0, 0, 1, 20⟩ 1000 = 8
      ∧ sbTopRow ⟨0, 0, 1, 20⟩ ⟨0, 0, 1, 20⟩ 0 1000 = 0
      ∧ sbBottomRow ⟨0, 0, 1, 20⟩ ⟨0, 0, 1, 20⟩ 0 1000 = 1
      ∧ sbTopFract ⟨0, 0, 1, 20⟩ ⟨0, 0, 1, 20⟩ 0 1000 = 0
      ∧ sbBottomFract ⟨0, 0, 1, 20⟩ ⟨0, 0, 1, 20⟩ 0 1000 = 0
      ∧ ((Framebuffer.new.flip ⟨1, 20⟩).draw_scrollbar ⟨0, 0, 1, 20⟩ ⟨0, 0, 1, 20⟩ 0
          1000).2 = 1
      ∧ ((Framebuffer.new.flip ⟨1, 20⟩).draw_scrollbar ⟨0, 0, 1, 20⟩ ⟨0, 0, 1, 20⟩ 0
          1000).1.backBuf.text.lines
        = [0xE2, 0x96, 0x88] :: List.replicate 19 [32] := by
  decide

end EditFb

namespace EditFb

/-! ## Infrastructure lemmas about buffer selection and the drawing
methods -/

theorem selBuf_setBuf_same (p : Buffer × Buffer) (i : Nat) (b : Buffer) :
    selBuf (setBuf p i b) i = b := by
  unfold selBuf setBuf
  rcases Nat.mod_two_eq_zero_or_one i with h | h <;> simp [h]

theorem selBuf_setBuf_diff (p : Buffer × Buffer) (i j : Nat) (b : Buffer)
    (h : i % 2 ≠ j % 2) : selBuf (setBuf p i b) j = selBuf p j := by
  unfold selBuf setBuf
  rcases Nat.mod_two_eq_zero_or_one i with hi | hi <;>
    rcases Nat.mod_two_eq_zero_or_one j with hj | hj <;>
      simp [hi, hj] at h ⊢

theorem setBuf_setBuf (p : Buffer × Buffer) (i : Nat) (a b : Buffer) :
    setBuf (setBuf p i a) i b = setBuf p i b := by
  unfold setBuf; split <;> simp

theorem setBuf_selBuf_self (p : Buffer × Buffer) (i : Nat) :
    setBuf p i (selBuf p i) = p := by
  unfold setBuf selBuf; split <;> simp

@[simp] theorem modifyBack_backBuf (fb : Framebuffer) (f : Buffer → Buffer) :
    (modifyBack fb f).backBuf = f fb.backBuf := by
  unfold modifyBack Framebuffer.backBuf Framebuffer.backIdx
  exact selBuf_setBuf_same _ _ _

@[simp] theorem modifyBack_frontBuf (fb : Framebuffer) (f : Buffer → Buffer) :
    (modifyBack fb f).frontBuf = fb.frontBuf := by
  unfold modifyBack Framebuffer.frontBuf Framebuffer.backIdx
  refine selBuf_setBuf_diff _ _ _ _ ?_
  rcases Nat.mod_two_eq_zero_or_one fb.frame_counter with h | h <;> simp [h]

@[simp] theorem modifyBack_indexed_colors (fb : Framebuffer) (f : Buffer → Buffer) :
    (modifyBack fb f).indexed_colors = fb.indexed_colors := rfl

@[simp] theorem modifyBack_frame_counter (fb : Framebuffer) (f : Buffer → Buffer) :
    (modifyBack fb f).frame_counter = fb.frame_counter := rfl

@[simp] theorem modifyBack_background_fill (fb : Framebuffer) (f : Buffer → Buffer) :
    (modifyBack fb f).background_fill = fb.background_fill := rfl

@[simp] theorem modifyBack_foreground_fill (fb : Framebuffer) (f : Buffer → Buffer) :
    (modifyBack fb f).foreground_fill = fb.foreground_fill := rfl

@[simp] theorem modifyBack_disable_true_color (fb : Framebuffer) (f : Buffer → Buffer) :
    (modifyBack fb f).disable_true_color = fb.disable_true_color := rfl

@[simp] theorem modifyBack_auto_colors (fb : Framebuffer) (f : Buffer → Buffer) :
    (modifyBack fb f).auto_colors = fb.auto_colors := rfl

@[simp] theorem modifyBack_auto_color_threshold (fb : Framebuffer) (f : Buffer → Buffer) :
    (modifyBack fb f).auto_color_threshold = fb.auto_color_threshold := rfl

@[simp] theorem modifyBack_contrast_colors (fb : Framebuffer) (f : Buffer → Buffer) :
    (modifyBack fb f).contrast_colors = fb.contrast_colors := rfl

theorem replace_text_eq_modifyBack (fb : Framebuffer) (y ox cr : Int) (t : List Nat) :
    fb.replace_text y ox cr t
      = modifyBack fb fun b => { b with text := b.text.replace_text y ox cr t } := rfl

theorem blend_bg_eq_modifyBack (fb : Framebuffer) (r : Rect) (c : Nat) :
    fb.blend_bg r c = modifyBack fb fun b => { b with bg_bitmap := b.bg_bitmap.blend r c } :=
  rfl

theorem blend_fg_eq_modifyBack (fb : Framebuffer) (r : Rect) (c : Nat) :
    fb.blend_fg r c = modifyBack fb fun b => { b with fg_bitmap := b.fg_bitmap.blend r c } :=
  rfl

theorem reverse_eq_modifyBack (fb : Framebuffer) (r : Rect) :
    fb.reverse r = modifyBack fb (Buffer.reverseRect r) := rfl

theorem replace_attr_eq_modifyBack (fb : Framebuffer) (r : Rect) (m a : Nat) :
    fb.replace_attr r m a
      = modifyBack fb fun b => { b with attributes := b.attributes.replace r m a } := rfl

theorem set_cursor_eq_modifyBack (fb : Framebuffer) (p : Point) (o : Bool) :
    fb.set_cursor p o = modifyBack fb fun b => { b with cursor := ⟨p, o⟩ } := rfl

/-! ## Small list helpers -/

theorem set_of_getElem? {α : Type} (l : List α) (i : Nat) (a : α) (h : l[i]? = some a) :
    l.set i a = l := by
  induction l generalizing i with
  | nil => simp at h
  | cons x xs ih =>
    cases i with
    | zero => simp_all
    | succ n => simp_all

theorem all_beq_zero_replicate (n : Nat) : (List.replicate n (0 : Nat)).all (· == 0) = true := by
  induction n with
  | zero => rfl
  | succ m ih => simp [List.replicate_succ, ih]

end EditFb

namespace EditFb

/-! ## Claim C4 -/

theorem iclamp_le_of_le (cr width ox : Int) (h : cr ≤ ox) (hox : 0 ≤ ox) :
    iclamp cr 0 width ≤ ox := by
  unfold iclamp
  have hmin : cr ⊓ width ≤ cr := min_le_left _ _
  rcases le_total (cr ⊓ width) 0 with hle | hge
  · rw [max_eq_left hle]; exact hox
  · rw [max_eq_right hge]; omega

theorem iclamp_eq_zero_of_neg (cr width : Int) (h : cr < 0) : iclamp cr 0 width = 0 := by
  unfold iclamp
  have hmin : cr ⊓ width ≤ cr := min_le_left _ _
  exact max_eq_left (by omega)

theorem replaceTextLine_noop (width : Int) (line : List Nat) (ox cr : Int) (t : List Nat)
    (h : cr ≤ ox) : replaceTextLine width line ox cr t = line := by
  simp only [replaceTextLine]
  split
  · rfl
  · split
    · rfl
    · rename_i h1 h2
      exfalso
      push_neg at h1 h2
      by_cases hox : ox < 0
      · have h0 : iclamp cr 0 width = 0 := iclamp_eq_zero_of_neg _ _ (by omega)
        omega
      · have hl : rtLeft ox t = ox := by unfold rtLeft; rw [if_neg hox]
        have h0 : iclamp cr 0 width ≤ ox := iclamp_le_of_le _ _ _ h (by omega)
        omega

/-- Claim C4: `replace_text(y, origin_x, clip_right, text)` with
`origin_x ≥ clip_right` (including negative values of either coordinate)
leaves the `LineBuffer` completely unchanged.  The width hypothesis marks
the boundary of the model: on a negative stored width the source's
`clip_right.clamp(0, width)` would panic instead of returning, and
program-constructed buffers always have a nonnegative width. -/
theorem C4_replace_text_out_of_range_noop (lb : LineBuffer) (y origin_x clip_right : Int)
    (text : List Nat) (h : clip_right ≤ origin_x) (_hw : 0 ≤ lb.size.width) :
    lb.replace_text y origin_x clip_right text = lb := by
  unfold LineBuffer.replace_text
  split
  · rfl
  · split
    · rfl
    · rename_i line hline
      rw [replaceTextLine_noop _ _ _ _ _ h, set_of_getElem? _ _ _ hline]

/-- Claim C4 witness: a concrete no-op call on a 3×1 buffer. -/
theorem C4_witness :
    ((LineBuffer.new ⟨3, 1⟩).fill_whitespace).replace_text 0 5 2 [65, 66]
      = (LineBuffer.new ⟨3, 1⟩).fill_whitespace :=
  C4_replace_text_out_of_range_noop _ 0 5 2 [65, 66] (by decide) (by decide)

/-! ## Claim C9 -/

theorem lines_replace_text_ne (lb : LineBuffer) (y ox cr : Int) (t : List Nat) (i : Nat)
    (hi : (i : Int) ≠ y) : (lb.replace_text y ox cr t).lines[i]? = lb.lines[i]? := by
  unfold LineBuffer.replace_text
  split
  · rfl
  · rename_i hy
    split
    · rfl
    · rename_i line hline
      have hne : y.toNat ≠ i := by omega
      exact List.getElem?_set_ne hne

/-- Claim C9: every call `replace_text(y, origin_x, clip_right, text)`
modifies at most the single `LineBuffer` row at index `y` of the back
buffer: the front buffer, both bitmaps, the attribute buffer and the
cursor of the back buffer are unchanged, and so is every back-buffer text
row other than `y`. -/
theorem C9_replace_text_frame_effect (fb : Framebuffer) (y origin_x clip_right : Int)
    (text : List Nat) :
    (fb.replace_text y origin_x clip_right text).frontBuf = fb.frontBuf
      ∧ (fb.replace_text y origin_x clip_right text).backBuf.bg_bitmap
          = fb.backBuf.bg_bitmap
      ∧ (fb.replace_text y origin_x clip_right text).backBuf.fg_bitmap
          = fb.backBuf.fg_bitmap
      ∧ (fb.replace_text y origin_x clip_right text).backBuf.attributes
          = fb.backBuf.attributes
      ∧ (fb.replace_text y origin_x clip_right text).backBuf.cursor = fb.backBuf.cursor
      ∧ ∀ i : Nat, (i : Int) ≠ y →
          (fb.replace_text y origin_x clip_right text).backBuf.text.lines[i]?
            = fb.backBuf.text.lines[i]? := by
  refine ⟨modifyBack_frontBuf _ _, ?_, ?_, ?_, ?_, ?_⟩
  · rw [replace_text_eq_modifyBack, modifyBack_backBuf]
  · rw [replace_text_eq_modifyBack, modifyBack_backBuf]
  · rw [replace_text_eq_modifyBack, modifyBack_backBuf]
  · rw [replace_text_eq_modifyBack, modifyBack_backBuf]
  · intro i hi
    rw [replace_text_eq_modifyBack, modifyBack_backBuf]
    exact lines_replace_text_ne _ _ _ _ _ _ hi

/-- Claim C9 witness: a concrete framebuffer where row 1 and all
non-text state are untouched by a `replace_text` on row 0. -/
theorem C9_witness :
    ((Framebuffer.new.flip ⟨2, 2⟩).replace_text 0 0 2 [65]).frontBuf
        = (Framebuffer.new.flip ⟨2, 2⟩).frontBuf
      ∧ ((Framebuffer.new.flip ⟨2, 2⟩).replace_text 0 0 2 [65]).backBuf.text.lines[1]?
          = (Framebuffer.new.flip ⟨2, 2⟩).backBuf.text.lines[1]? :=
  ⟨(C9_replace_text_frame_effect _ 0 0 2 [65]).1,
    (C9_replace_text_frame_effect _ 0 0 2 [65]).2.2.2.2.2 1 (by decide)⟩

end EditFb

namespace EditFb

/-! ## Claim C7 -/

theorem flipPre_background_fill (fb : Framebuffer) (s : Size) :
    (flipPre fb s).background_fill = fb.background_fill := by
  unfold flipPre; split <;> rfl

theorem flipPre_foreground_fill (fb : Framebuffer) (s : Size) :
    (flipPre fb s).foreground_fill = fb.foreground_fill := by
  unfold flipPre; split <;> rfl

theorem flipPre_frame_counter (fb : Framebuffer) (s : Size) :
    (flipPre fb s).frame_counter = fb.frame_counter := by
  unfold flipPre; split <;> rfl

theorem flipPre_indexed_colors (fb : Framebuffer) (s : Size) :
    (flipPre fb s).indexed_colors = fb.indexed_colors := by
  unfold flipPre; split <;> rfl

theorem backBuf_flip (fb : Framebuffer) (s : Size) :
    (fb.flip s).backBuf
      = primeBuffer fb.background_fill fb.foreground_fill
          (Framebuffer.backBuf
            { flipPre fb s with frame_counter := (flipPre fb s).frame_counter + 1 }) := by
  unfold Framebuffer.flip
  rw [modifyBack_backBuf, flipPre_background_fill, flipPre_foreground_fill]
  rfl

/-- Claim C7: `format_color` emits the VT default-color sequence
(`ESC [ 39 m` for the foreground side, `ESC [ 49 m` for the background
side) if and only if the color word is all-zero; after
`set_indexed_colors` both `background_fill` and `foreground_fill` are the
all-zero sentinel, so the back buffer primed by the next `flip` has
all-zero bg and fg bitmaps; and in the concrete first frame after a
palette install, the first dirty cell's background is emitted as
`ESC [ 49 m` (the render output is exactly
`ESC[m ESC[1;1H ESC[49m ESC[39m "  " ESC[?25l`, with no RGB triple). -/
theorem C7_default_color_sentinel :
    (∀ (fb : Framebuffer) (side : Bool) (c : Nat),
        fb.format_color side c = [27, 91, if side then 51 else 52, 57, 109] ↔ c = 0)
      ∧ (∀ (fb : Framebuffer) (colors : List Nat),
          (fb.set_indexed_colors colors).background_fill = 0
            ∧ (fb.set_indexed_colors colors).foreground_fill = 0)
      ∧ (∀ (fb : Framebuffer) (colors : List Nat) (sz : Size),
          (((fb.set_indexed_colors colors).flip sz).backBuf.bg_bitmap.data.all (· == 0))
              = true
            ∧ (((fb.set_indexed_colors colors).flip sz).backBuf.fg_bitmap.data.all (· == 0))
              = true)
      ∧ ((Framebuffer.new.set_indexed_colors DEFAULT_THEME).flip ⟨2, 1⟩).render
          = [27, 91, 109, 27, 91, 49, 59, 49, 72, 27, 91, 52, 57, 109, 27, 91, 51, 57, 109,
             32, 32, 27, 91, 63, 50, 53, 108] := by
  refine ⟨?_, fun fb colors => ⟨rfl, rfl⟩, ?_, by decide⟩
  · intro fb side c
    constructor
    · intro heq
      by_contra hc
      simp only [Framebuffer.format_color, if_neg hc] at heq
      split at heq <;>
        · have h3 := congrArg (fun l => l[3]?) heq
          simp at h3
    · intro hc
      subst hc
      simp [Framebuffer.format_color]
  · intro fb colors sz
    rw [backBuf_flip]
    constructor
    · show (List.replicate _ (fb.set_indexed_colors colors).background_fill).all (· == 0)
          = true
      exact all_beq_zero_replicate _
    · show (List.replicate _ (fb.set_indexed_colors colors).foreground_fill).all (· == 0)
          = true
      exact all_beq_zero_replicate _

/-! ## Claim C10 -/

theorem tmod8_bounds (a : Int) : -8 < Int.tmod a 8 ∧ Int.tmod a 8 < 8 := by
  cases a with
  | ofNat m =>
    have h : Int.tmod (Int.ofNat m) 8 = ((m % 8 : Nat) : Int) := rfl
    have h2 : m % 8 < 8 := Nat.mod_lt _ (by omega)
    rw [h]
    omega
  | negSucc m =>
    have h : Int.tmod (Int.negSucc m) 8 = -(((m + 1) % 8 : Nat) : Int) := rfl
    have h2 : (m + 1) % 8 < 8 := Nat.mod_lt _ (by omega)
    rw [h]
    omega

theorem fract_buffer_decodes (t : Int) (h1 : -8 < t) (h2 : t < 8) :
    Utf8Valid [0xE2, 0x96, (0x88 - t).toNat] = true
      ∧ ∃ cp, utf8DecodeAll [0xE2, 0x96, (0x88 - t).toNat] = some [cp]
          ∧ 0x2580 ≤ cp ∧ cp ≤ 0x258F := by
  refine ⟨?_, ⟨0x2500 + (0x88 - t).toNat, ?_, ?_, ?_⟩⟩ <;> interval_cases t <;> decide

/-- Claim C10: in `draw_scrollbar`, `top_fract` and `bottom_fract` are
remainders modulo 8 and so lie strictly between -8 and 8; hence whenever
a fractional cell is drawn (`fract ≠ 0`), the 3-byte buffer
`[0xE2, 0x96, 0x88 - fract]` passed to `str::from_utf8_unchecked` is
valid UTF-8 and encodes a single block-element code point in
`U+2580..=U+258F` (third byte in the continuation range
`0x81..=0x8F`). -/
theorem C10_scrollbar_fract_utf8 (clip track : Rect) (co ch : Int) :
    (-8 < sbTopFract clip track co ch ∧ sbTopFract clip track co ch < 8
      ∧ -8 < sbBottomFract clip track co ch ∧ sbBottomFract clip track co ch < 8)
      ∧ (sbTopFract clip track co ch ≠ 0 →
          Utf8Valid [0xE2, 0x96, (0x88 - sbTopFract clip track co ch).toNat] = true
            ∧ ∃ cp, utf8DecodeAll [0xE2, 0x96, (0x88 - sbTopFract clip track co ch).toNat]
                  = some [cp] ∧ 0x2580 ≤ cp ∧ cp ≤ 0x258F)
      ∧ (sbBottomFract clip track co ch ≠ 0 →
          Utf8Valid [0xE2, 0x96, (0x88 - sbBottomFract clip track co ch).toNat] = true
            ∧ ∃ cp, utf8DecodeAll [0xE2, 0x96, (0x88 - sbBottomFract clip track co ch).toNat]
                  = some [cp] ∧ 0x2580 ≤ cp ∧ cp ≤ 0x258F) := by
  have ht := tmod8_bounds (sbThumbTopAbs clip track co ch)
  have hb := tmod8_bounds (sbThumbBottomAbs clip track co ch)
  exact ⟨⟨ht.1, ht.2, hb.1, hb.2⟩,
    fun _ => fract_buffer_decodes _ ht.1 ht.2,
    fun _ => fract_buffer_decodes _ hb.1 hb.2⟩

/-- Claim C10 witness: a concrete scrollbar whose thumb has fractional
top and bottom cells (track `{0,0,1,3}`, content height 9, offset 1,
both fracts are 3), with the fractional glyph `▅` (`U+2585`). -/
theorem C10_witness :
    (Utf8Valid [0xE2, 0x96, (0x88 - sbTopFract ⟨0, 0, 5, 5⟩ ⟨0, 0, 1, 3⟩ 1 9).toNat] = true
        ∧ ∃ cp, utf8DecodeAll
              [0xE2, 0x96, (0x88 - sbTopFract ⟨0, 0, 5, 5⟩ ⟨0, 0, 1, 3⟩ 1 9).toNat]
            = some [cp] ∧ 0x2580 ≤ cp ∧ cp ≤ 0x258F)
      ∧ (Utf8Valid [0xE2, 0x96, (0x88 - sbBottomFract ⟨0, 0, 5, 5⟩ ⟨0, 0, 1, 3⟩ 1 9).toNat]
            = true
          ∧ ∃ cp, utf8DecodeAll
                [0xE2, 0x96, (0x88 - sbBottomFract ⟨0, 0, 5, 5⟩ ⟨0, 0, 1, 3⟩ 1 9).toNat]
              = some [cp] ∧ 0x2580 ≤ cp ∧ cp ≤ 0x258F) :=
  ⟨(C10_scrollbar_fract_utf8 ⟨0, 0, 5, 5⟩ ⟨0, 0, 1, 3⟩ 1 9).2.1 (by decide),
    (C10_scrollbar_fract_utf8 ⟨0, 0, 5, 5⟩ ⟨0, 0, 1, 3⟩ 1 9).2.2 (by decide)⟩

end EditFb

namespace EditFb

/-! ## Claim C2 -/

/-- Claim C2 (counterexample): in the zero-initialized initial cache
state, `contrasted(0)` hits the zero-filled slot 0 (the all-zero key
spuriously matches the query) and returns 0, while the slow path returns
`auto_colors[1]` (BrightWhite, a nonzero word), so the cache does not
return the slow-path value for every query. -/
theorem C2_zero_color_counterexample :
    ¬ Framebuffer.new.contrasted_value 0 = Framebuffer.new.contrasted_slow_value 0 := by
  decide


theorem contrasted_step_slow_value (fb : Framebuffer) (c x : Nat) :
    (fb.contrasted_step c).contrasted_slow_value x = fb.contrasted_slow_value x := by
  simp only [Framebuffer.contrasted_step]
  split <;> rfl

theorem cacheOK_init (fb : Framebuffer)
    (h : fb.contrast_colors = List.replicate 256 ((0 : Nat), (0 : Nat))) : CacheOK fb := by
  intro s hs
  rw [h] at hs
  exact Or.inl (List.eq_of_mem_replicate hs)

theorem cacheOK_step (fb : Framebuffer) (c : Nat) (h : CacheOK fb) :
    CacheOK (fb.contrasted_step c) := by
  intro s hs
  rw [contrasted_step_slow_value]
  simp only [Framebuffer.contrasted_step] at hs
  split at hs
  · exact h s hs
  · rcases List.mem_or_eq_of_mem_set hs with hmem | heq
    · exact h s hmem
    · subst heq
      exact Or.inr rfl

theorem reach_cacheOK (fb0 fb : Framebuffer)
    (h0 : fb0.contrast_colors = List.replicate 256 ((0 : Nat), (0 : Nat)))
    (hr : ContrastReachable fb0 fb) : CacheOK fb := by
  induction hr with
  | refl => exact cacheOK_init _ h0
  | step c _ ih => exact cacheOK_step _ c ih

/-- Claim C2 (amended): for every query color `c` other than the all-zero
word and every cache state reachable by `contrasted` queries from a
zero-initialized cache, `contrasted(c)` returns exactly the slow-path
value `auto_colors[lightness(c) < auto_color_threshold ? 1 : 0]`.  (For
`c = 0` in the initial state the claim fails, see the counterexample.) -/
theorem C2_contrast_cache_refines_slow_path (fb0 fb : Framebuffer) (c : Nat)
    (h0 : fb0.contrast_colors = List.replicate 256 ((0 : Nat), (0 : Nat)))
    (hr : ContrastReachable fb0 fb) (hc : c ≠ 0) :
    fb.contrasted_value c = fb.contrasted_slow_value c := by
  have hok := reach_cacheOK fb0 fb h0 hr
  simp only [Framebuffer.contrasted_value]
  split
  · rename_i hhit
    by_cases hlen : hashIdx c < fb.contrast_colors.length
    · have hget : fb.contrast_colors.getD (hashIdx c) (0, 0)
          = fb.contrast_colors[hashIdx c] := List.getD_eq_getElem _ _ hlen
      have hmem : fb.contrast_colors.getD (hashIdx c) (0, 0) ∈ fb.contrast_colors := by
        rw [hget]
        exact List.getElem_mem hlen
      rcases hok _ hmem with hz | hsl
      · rw [hz] at hhit
        exact absurd hhit.symm hc
      · rw [hhit] at hsl
        exact hsl
    · rw [List.getD_eq_default _ _ (by omega)] at hhit
      exact absurd hhit.symm hc
  · rfl

/-- Claim C2 witness: a nonzero query on the initial state returns the
slow-path value. -/
theorem C2_witness :
    Framebuffer.new.contrasted_value 1 = Framebuffer.new.contrasted_slow_value 1 :=
  C2_contrast_cache_refines_slow_path Framebuffer.new Framebuffer.new 1 (by rfl)
    ContrastReachable.refl (by decide)

end EditFb

namespace EditFb

/-! ## Claim C8 -/

theorem writeSpan_length (l s : List Nat) (beg : Nat) (h : beg + s.length ≤ l.length) :
    (writeSpan l beg s).length = l.length := by
  simp [writeSpan, List.length_take, List.length_drop]
  omega

theorem spanOf_length (l : List Nat) (beg fin : Nat) (h1 : beg ≤ fin) (h2 : fin ≤ l.length) :
    (spanOf l beg fin).length = fin - beg := by
  simp [spanOf, List.length_take, List.length_drop]
  omega

theorem getElem?_writeSpan (l s : List Nat) (beg : Nat) (h : beg + s.length ≤ l.length)
    (i : Nat) :
    (writeSpan l beg s)[i]? =
      if i < beg then l[i]?
      else if i < beg + s.length then s[i - beg]?
      else l[i]? := by
  have htk : (l.take beg).length = beg := by
    simp [List.length_take]
    omega
  simp only [writeSpan, List.append_assoc]
  rcases Nat.lt_or_ge i beg with h1 | h1
  · rw [List.getElem?_append, if_pos (by omega), if_pos h1,
      List.getElem?_take_of_lt h1]
  · rw [List.getElem?_append, if_neg (by omega), if_neg (by omega), htk,
      List.getElem?_append]
    rcases Nat.lt_or_ge i (beg + s.length) with h2 | h2
    · rw [if_pos (by omega), if_pos h2]
    · rw [if_neg (by omega), if_neg (by omega), List.getElem?_drop]
      congr 1
      omega

theorem getElem?_swapSpan_fst (p : List Nat × List Nat) (beg fin : Nat)
    (h1 : beg ≤ fin) (h2 : fin ≤ p.1.length) (h3 : p.1.length = p.2.length) (i : Nat) :
    (swapSpan p beg fin).1[i]? = if beg ≤ i ∧ i < fin then p.2[i]? else p.1[i]? := by
  have hsl : (spanOf p.2 beg fin).length = fin - beg := spanOf_length _ _ _ h1 (by omega)
  rw [show (swapSpan p beg fin).1 = writeSpan p.1 beg (spanOf p.2 beg fin) from rfl,
    getElem?_writeSpan _ _ _ (by omega)]
  rcases Nat.lt_or_ge i beg with hi | hi
  · rw [if_pos hi, if_neg (by omega)]
  · rw [if_neg (by omega)]
    rcases Nat.lt_or_ge i fin with hf | hf
    · rw [if_pos (by omega), if_pos (by omega)]
      unfold spanOf
      rw [List.getElem?_drop]
      rw [show beg + (i - beg) = i by omega]
      exact List.getElem?_take_of_lt hf
    · rw [if_neg (by omega), if_neg (by omega)]

theorem getElem?_swapSpan_snd (p : List Nat × List Nat) (beg fin : Nat)
    (h1 : beg ≤ fin) (h2 : fin ≤ p.1.length) (h3 : p.1.length = p.2.length) (i : Nat) :
    (swapSpan p beg fin).2[i]? = if beg ≤ i ∧ i < fin then p.1[i]? else p.2[i]? := by
  have hsl : (spanOf p.1 beg fin).length = fin - beg := spanOf_length _ _ _ h1 h2
  rw [show (swapSpan p beg fin).2 = writeSpan p.2 beg (spanOf p.1 beg fin) from rfl,
    getElem?_writeSpan _ _ _ (by omega)]
  rcases Nat.lt_or_ge i beg with hi | hi
  · rw [if_pos hi, if_neg (by omega)]
  · rw [if_neg (by omega)]
    rcases Nat.lt_or_ge i fin with hf | hf
    · rw [if_pos (by omega), if_pos (by omega)]
      unfold spanOf
      rw [List.getElem?_drop]
      rw [show beg + (i - beg) = i by omega]
      exact List.getElem?_take_of_lt hf
    · rw [if_neg (by omega), if_neg (by omega)]

theorem swapSpan_length_fst (p : List Nat × List Nat) (beg fin : Nat)
    (h1 : beg ≤ fin) (h2 : fin ≤ p.1.length) (h3 : p.1.length = p.2.length) :
    (swapSpan p beg fin).1.length = p.1.length := by
  rw [show (swapSpan p beg fin).1 = writeSpan p.1 beg (spanOf p.2 beg fin) from rfl]
  rw [writeSpan_length]
  rw [spanOf_length _ _ _ h1 (by omega)]
  omega

theorem swapSpan_length_snd (p : List Nat × List Nat) (beg fin : Nat)
    (h1 : beg ≤ fin) (h2 : fin ≤ p.1.length) (h3 : p.1.length = p.2.length) :
    (swapSpan p beg fin).2.length = p.2.length := by
  rw [show (swapSpan p beg fin).2 = writeSpan p.2 beg (spanOf p.1 beg fin) from rfl]
  rw [writeSpan_length]
  rw [spanOf_length _ _ _ h1 h2]
  omega

end EditFb

namespace EditFb


theorem ranges_disjoint {stride left right z y i : Nat} (hrs : right ≤ stride)
    (hne : z ≠ y) (hz1 : z * stride + left ≤ i) (hz2 : i < z * stride + right)
    (hy1 : y * stride + left ≤ i) (hy2 : i < y * stride + right) : False := by
  rcases Nat.lt_or_ge z y with h | h
  · have hm : (z + 1) * stride ≤ y * stride := Nat.mul_le_mul_right _ (by omega)
    have he : (z + 1) * stride = z * stride + stride := by ring
    omega
  · have hlt : y < z := by omega
    have hm : (y + 1) * stride ≤ z * stride := Nat.mul_le_mul_right _ (by omega)
    have he : (y + 1) * stride = y * stride + stride := by ring
    omega

theorem swapRows_spec (stride left right : Nat) (hll : left ≤ right) (hrs : right ≤ stride)
    (rows : List Nat) (hnd : rows.Nodup) (N : Nat)
    (hbound : ∀ y ∈ rows, y * stride + right ≤ N) :
    ∀ p : List Nat × List Nat, p.1.length = N → p.2.length = N →
      (swapRows stride left right rows p).1.length = N
        ∧ (swapRows stride left right rows p).2.length = N
        ∧ (∀ i, (swapRows stride left right rows p).1[i]?
            = if ∃ y ∈ rows, y * stride + left ≤ i ∧ i < y * stride + right then p.2[i]?
              else p.1[i]?)
        ∧ (∀ i, (swapRows stride left right rows p).2[i]?
            = if ∃ y ∈ rows, y * stride + left ≤ i ∧ i < y * stride + right then p.1[i]?
              else p.2[i]?) := by
  induction rows with
  | nil =>
    intro p h1 h2
    refine ⟨h1, h2, fun i => ?_, fun i => ?_⟩ <;> simp [swapRows]
  | cons y ys ih =>
    intro p h1 h2
    have hy := hbound y (List.mem_cons_self _ _)
    have hb1 : y * stride + left ≤ y * stride + right := by omega
    have hf1 : y * stride + right ≤ p.1.length := by omega
    have hlen := h1.trans h2.symm
    have hl1 : (swapSpan p (y * stride + left) (y * stride + right)).1.length = N := by
      rw [swapSpan_length_fst _ _ _ hb1 hf1 hlen]; exact h1
    have hl2 : (swapSpan p (y * stride + left) (y * stride + right)).2.length = N := by
      rw [swapSpan_length_snd _ _ _ hb1 hf1 hlen]; exact h2
    have hrec := ih hnd.of_cons (fun z hz => hbound z (List.mem_cons_of_mem _ hz))
      (swapSpan p (y * stride + left) (y * stride + right)) hl1 hl2
    have hstep : swapRows stride left right (y :: ys) p
        = swapRows stride left right ys (swapSpan p (y * stride + left) (y * stride + right)) :=
      rfl
    have hnotmem : y ∉ ys := (List.nodup_cons.mp hnd).1
    refine ⟨hstep ▸ hrec.1, hstep ▸ hrec.2.1, fun i => ?_, fun i => ?_⟩
    · rw [hstep, hrec.2.2.1 i]
      by_cases hys : ∃ z ∈ ys, z * stride + left ≤ i ∧ i < z * stride + right
      · rw [if_pos hys]
        rw [getElem?_swapSpan_snd p _ _ hb1 hf1 hlen i]
        obtain ⟨z, hzmem, hz1, hz2⟩ := hys
        have hyi : ¬(y * stride + left ≤ i ∧ i < y * stride + right) := by
          rintro ⟨ha, hb⟩
          exact ranges_disjoint hrs (fun he => hnotmem (by rwa [he] at hzmem)) hz1 hz2 ha hb
        rw [if_neg hyi, if_pos ⟨z, List.mem_cons_of_mem _ hzmem, hz1, hz2⟩]
      · rw [if_neg hys]
        rw [getElem?_swapSpan_fst p _ _ hb1 hf1 hlen i]
        by_cases hyi : y * stride + left ≤ i ∧ i < y * stride + right
        · rw [if_pos hyi, if_pos ⟨y, List.mem_cons_self _ _, hyi⟩]
        · rw [if_neg hyi, if_neg ?_]
          rintro ⟨z, hzmem, hz⟩
          rcases List.mem_cons.mp hzmem with rfl | hzys
          · exact hyi hz
          · exact hys ⟨z, hzys, hz⟩
    · rw [hstep, hrec.2.2.2 i]
      by_cases hys : ∃ z ∈ ys, z * stride + left ≤ i ∧ i < z * stride + right
      · rw [if_pos hys]
        rw [getElem?_swapSpan_fst p _ _ hb1 hf1 hlen i]
        obtain ⟨z, hzmem, hz1, hz2⟩ := hys
        have hyi : ¬(y * stride + left ≤ i ∧ i < y * stride + right) := by
          rintro ⟨ha, hb⟩
          exact ranges_disjoint hrs (fun he => hnotmem (by rwa [he] at hzmem)) hz1 hz2 ha hb
        rw [if_neg hyi, if_pos ⟨z, List.mem_cons_of_mem _ hzmem, hz1, hz2⟩]
      · rw [if_neg hys]
        rw [getElem?_swapSpan_snd p _ _ hb1 hf1 hlen i]
        by_cases hyi : y * stride + left ≤ i ∧ i < y * stride + right
        · rw [if_pos hyi, if_pos ⟨y, List.mem_cons_self _ _, hyi⟩]
        · rw [if_neg hyi, if_neg ?_]
          rintro ⟨z, hzmem, hz⟩
          rcases List.mem_cons.mp hzmem with rfl | hzys
          · exact hyi hz
          · exact hys ⟨z, hzys, hz⟩

theorem swapRows_involutive (stride left right : Nat) (hll : left ≤ right)
    (hrs : right ≤ stride) (rows : List Nat) (hnd : rows.Nodup) (N : Nat)
    (hbound : ∀ y ∈ rows, y * stride + right ≤ N) (p : List Nat × List Nat)
    (h1 : p.1.length = N) (h2 : p.2.length = N) :
    swapRows stride left right rows (swapRows stride left right rows p) = p := by
  have hq := swapRows_spec stride left right hll hrs rows hnd N hbound p h1 h2
  have hqq := swapRows_spec stride left right hll hrs rows hnd N hbound _ hq.1 hq.2.1
  have e1 : (swapRows stride left right rows (swapRows stride left right rows p)).1 = p.1 := by
    apply List.ext_getElem?
    intro i
    rw [hqq.2.2.1 i, hq.2.2.1 i, hq.2.2.2 i]
    split <;> rfl
  have e2 : (swapRows stride left right rows (swapRows stride left right rows p)).2 = p.2 := by
    apply List.ext_getElem?
    intro i
    rw [hqq.2.2.2 i, hq.2.2.1 i, hq.2.2.2 i]
    split <;> rfl
  exact Prod.ext e1 e2

end EditFb

namespace EditFb

theorem toNat_mul_of_nonneg {w h : Int} (hw : 0 ≤ w) (hh : 0 ≤ h) :
    (w * h).toNat = w.toNat * h.toNat := by
  have he : w * h = ((w.toNat * h.toNat : Nat) : Int) := by
    push_cast
    rw [Int.toNat_of_nonneg hw, Int.toNat_of_nonneg hh]
  rw [he, Int.toNat_natCast]

theorem reverseRect_involutive (r : Rect) (b : Buffer) (hwf : b.WF) :
    Buffer.reverseRect r (Buffer.reverseRect r b) = b := by
  by_cases hemp : (r.intersect b.bg_bitmap.size.asRect).isEmpty = true
  · have h1 : Buffer.reverseRect r b = b := by
      simp only [Buffer.reverseRect]
      rw [if_pos hemp]
    rw [h1, h1]
  · obtain ⟨-, -, hbf, -, hlenbg, hlenfg, -⟩ := hwf
    set w := b.bg_bitmap.size.width with hw
    set h := b.bg_bitmap.size.height with hh
    set t := r.intersect b.bg_bitmap.size.asRect with ht
    have hfacts : t.left < t.right ∧ t.top < t.bottom ∧ 0 ≤ t.left ∧ 0 ≤ t.top
        ∧ t.right ≤ w ∧ t.bottom ≤ h := by
      simp only [Rect.isEmpty, Bool.or_eq_true, decide_eq_true_eq, not_or] at hemp
      refine ⟨by omega, by omega, ?_, ?_, ?_, ?_⟩ <;>
        simp [ht, Rect.intersect, Size.asRect, le_max_iff, min_le_iff]
    obtain ⟨hlr, htb, hl0, ht0, hrw, hbh⟩ := hfacts
    have hwpos : 0 < w := by omega
    have hhpos : 0 < h := by omega
    have hcells : (w * h).toNat = w.toNat * h.toNat :=
      toNat_mul_of_nonneg (by omega) (by omega)
    have hll : t.left.toNat ≤ t.right.toNat := Int.toNat_le_toNat (by omega)
    have hrs : t.right.toNat ≤ w.toNat := Int.toNat_le_toNat hrw
    have hnd : (List.range' t.top.toNat (t.bottom.toNat - t.top.toNat)).Nodup :=
      List.nodup_range' _ _
    have hbound : ∀ y ∈ List.range' t.top.toNat (t.bottom.toNat - t.top.toNat),
        y * w.toNat + t.right.toNat ≤ b.bg_bitmap.data.length := by
      intro y hy
      rw [List.mem_range'_1] at hy
      have hy2 : y + 1 ≤ t.bottom.toNat := by omega
      have hstep : (y + 1) * w.toNat = y * w.toNat + w.toNat := by ring
      have hm1 : (y + 1) * w.toNat ≤ t.bottom.toNat * w.toNat :=
        Nat.mul_le_mul_right _ hy2
      have hm2 : t.bottom.toNat * w.toNat ≤ h.toNat * w.toNat :=
        Nat.mul_le_mul_right _ (Int.toNat_le_toNat hbh)
      have hN : b.bg_bitmap.data.length = w.toNat * h.toNat := by
        rw [hlenbg, Size.cells, ← hw, ← hh, hcells]
      rw [hN]
      have hcomm : h.toNat * w.toNat = w.toNat * h.toNat := Nat.mul_comm _ _
      omega
    have hinv := swapRows_involutive w.toNat t.left.toNat t.right.toNat hll hrs
      (List.range' t.top.toNat (t.bottom.toNat - t.top.toNat)) hnd
      b.bg_bitmap.data.length hbound (b.bg_bitmap.data, b.fg_bitmap.data) rfl
      (by rw [hlenfg, hlenbg, ← hbf])
    have hone : Buffer.reverseRect r b =
        { b with
          bg_bitmap := { b.bg_bitmap with
            data := (swapRows w.toNat t.left.toNat t.right.toNat
              (List.range' t.top.toNat (t.bottom.toNat - t.top.toNat))
              (b.bg_bitmap.data, b.fg_bitmap.data)).1 }
          fg_bitmap := { b.fg_bitmap with
            data := (swapRows w.toNat t.left.toNat t.right.toNat
              (List.range' t.top.toNat (t.bottom.toNat - t.top.toNat))
              (b.bg_bitmap.data, b.fg_bitmap.data)).2 } } := by
      simp only [Buffer.reverseRect]
      rw [if_neg hemp]
      rfl
    have htwo : Buffer.reverseRect r (Buffer.reverseRect r b) =
        { b with
          bg_bitmap := { b.bg_bitmap with
            data := (swapRows w.toNat t.left.toNat t.right.toNat
              (List.range' t.top.toNat (t.bottom.toNat - t.top.toNat))
              (swapRows w.toNat t.left.toNat t.right.toNat
                (List.range' t.top.toNat (t.bottom.toNat - t.top.toNat))
                (b.bg_bitmap.data, b.fg_bitmap.data))).1 }
          fg_bitmap := { b.fg_bitmap with
            data := (swapRows w.toNat t.left.toNat t.right.toNat
              (List.range' t.top.toNat (t.bottom.toNat - t.top.toNat))
              (swapRows w.toNat t.left.toNat t.right.toNat
                (List.range' t.top.toNat (t.bottom.toNat - t.top.toNat))
                (b.bg_bitmap.data, b.fg_bitmap.data))).2 } } := by
      rw [hone]
      simp only [Buffer.reverseRect]
      rw [if_neg hemp]
      rfl
    rw [htwo, hinv]

theorem modifyBack_modifyBack (fb : Framebuffer) (f g : Buffer → Buffer) :
    modifyBack (modifyBack fb f) g = modifyBack fb (fun b => g (f b)) := by
  have hkey : setBuf (setBuf fb.buffers (fb.frame_counter % 2)
        (f (selBuf fb.buffers (fb.frame_counter % 2)))) (fb.frame_counter % 2)
        (g (selBuf (setBuf fb.buffers (fb.frame_counter % 2)
          (f (selBuf fb.buffers (fb.frame_counter % 2)))) (fb.frame_counter % 2)))
      = setBuf fb.buffers (fb.frame_counter % 2)
          (g (f (selBuf fb.buffers (fb.frame_counter % 2)))) := by
    rw [selBuf_setBuf_same, setBuf_setBuf]
  exact congrArg (fun bufs => { fb with buffers := bufs }) hkey

theorem backBuf_WF (fb : Framebuffer) (h : fb.WF) : fb.backBuf.WF := by
  unfold Framebuffer.backBuf selBuf
  split
  · exact h.1
  · exact h.2.1

theorem modifyBack_id (fb : Framebuffer) (f : Buffer → Buffer)
    (h : f fb.backBuf = fb.backBuf) : modifyBack fb f = fb := by
  unfold modifyBack
  rw [h]
  unfold Framebuffer.backBuf
  rw [setBuf_selBuf_self]

/-- Claim C8: for every rectangle (including rectangles partially or
fully outside the buffer) and every well-formed framebuffer state,
calling `reverse` twice in succession restores the framebuffer exactly —
in particular the background and foreground bitmaps are byte-identical to
their state before the first call. -/
theorem C8_reverse_involutive (fb : Framebuffer) (r : Rect) (h : fb.WF) :
    (fb.reverse r).reverse r = fb := by
  rw [reverse_eq_modifyBack, reverse_eq_modifyBack, modifyBack_modifyBack]
  exact modifyBack_id fb _ (reverseRect_involutive r fb.backBuf (backBuf_WF fb h))

/-- Claim C8 witness: a concrete double `reverse` over a rectangle that
overhangs the top-left corner of a 2×2 buffer. -/
theorem C8_witness :
    (((Framebuffer.new.flip ⟨2, 2⟩).reverse ⟨-1, -1, 1, 1⟩).reverse ⟨-1, -1, 1, 1⟩)
      = Framebuffer.new.flip ⟨2, 2⟩ :=
  C8_reverse_involutive (Framebuffer.new.flip ⟨2, 2⟩) ⟨-1, -1, 1, 1⟩ (by decide)

end EditFb

namespace EditFb

/-! ## Infrastructure for claim C6 -/


theorem Bitmap.blend_size (b : Bitmap) (t : Rect) (c : Nat) : (b.blend t c).size = b.size := by
  simp only [Bitmap.blend]
  split
  · rfl
  · split
    · rfl
    · rfl

theorem reverseRect_bg_size (r : Rect) (b : Buffer) :
    (Buffer.reverseRect r b).bg_bitmap.size = b.bg_bitmap.size := by
  simp only [Buffer.reverseRect]
  split
  · rfl
  · rfl

theorem foldl_pres {σ β : Type} (f : Framebuffer → σ → Framebuffer) (h : Framebuffer → β)
    (hf : ∀ fb s, h (f fb s) = h fb) :
    ∀ (l : List σ) (fb : Framebuffer), h (l.foldl f fb) = h fb := by
  intro l
  induction l with
  | nil => intro fb; rfl
  | cons x xs ih => intro fb; rw [List.foldl_cons, ih, hf]

theorem foldl_pres_buf {σ β : Type} (f : Buffer → σ → Buffer) (h : Buffer → β)
    (hf : ∀ b s, h (f b s) = h b) : ∀ (l : List σ) (b : Buffer), h (l.foldl f b) = h b := by
  intro l
  induction l with
  | nil => intro b; rfl
  | cons x xs ih => intro b; rw [List.foldl_cons, ih, hf]

theorem scrollbarBack_bg_size (colors : List Nat) (cl tr : Rect) (o h : Int) (b : Buffer) :
    (scrollbarBack colors cl tr o h b).bg_bitmap.size = b.bg_bitmap.size := by
  have hfold : ∀ (l : List Int) (bu : Buffer),
      (l.foldl (fun b y => { b with text := b.text.replace_text y (tr.intersect cl).left (tr.intersect cl).right [226, 150, 136] }) bu).bg_bitmap = bu.bg_bitmap := by
    intro l
    induction l with
    | nil => intro bu; rfl
    | cons x xs ih => intro bu; rw [List.foldl_cons, ih]
  simp only [scrollbarBack]
  split
  · rfl
  · split
    · rfl
    · split <;> split <;> simp [hfold, Bitmap.blend_size]

end EditFb

namespace EditFb

theorem draw_scrollbar_fst_backBuf (fb : Framebuffer) (cl tr : Rect) (o h : Int) :
    ((fb.draw_scrollbar cl tr o h).1).backBuf
      = scrollbarBack fb.indexed_colors cl tr o h fb.backBuf := by
  simp only [Framebuffer.draw_scrollbar]
  split
  · rename_i hc1
    show fb.backBuf = _
    simp only [scrollbarBack]
    rw [if_pos hc1]
  · rename_i hc1
    split
    · rename_i hc2
      show fb.backBuf = _
      simp only [scrollbarBack]
      rw [if_neg hc1, if_pos hc2]
    · exact modifyBack_backBuf _ _

theorem draw_scrollbar_fst_frontBuf (fb : Framebuffer) (cl tr : Rect) (o h : Int) :
    ((fb.draw_scrollbar cl tr o h).1).frontBuf = fb.frontBuf := by
  simp only [Framebuffer.draw_scrollbar]
  split
  · rfl
  · split
    · rfl
    · exact modifyBack_frontBuf _ _

theorem draw_scrollbar_fst_indexed_colors (fb : Framebuffer) (cl tr : Rect) (o h : Int) :
    ((fb.draw_scrollbar cl tr o h).1).indexed_colors = fb.indexed_colors := by
  simp only [Framebuffer.draw_scrollbar]
  split
  · rfl
  · split
    · rfl
    · rfl

theorem draw_scrollbar_fst_frame_counter (fb : Framebuffer) (cl tr : Rect) (o h : Int) :
    ((fb.draw_scrollbar cl tr o h).1).frame_counter = fb.frame_counter := by
  simp only [Framebuffer.draw_scrollbar]
  split
  · rfl
  · split
    · rfl
    · rfl

theorem draw_scrollbar_fst_background_fill (fb : Framebuffer) (cl tr : Rect) (o h : Int) :
    ((fb.draw_scrollbar cl tr o h).1).background_fill = fb.background_fill := by
  simp only [Framebuffer.draw_scrollbar]
  split
  · rfl
  · split
    · rfl
    · rfl

theorem draw_scrollbar_fst_foreground_fill (fb : Framebuffer) (cl tr : Rect) (o h : Int) :
    ((fb.draw_scrollbar cl tr o h).1).foreground_fill = fb.foreground_fill := by
  simp only [Framebuffer.draw_scrollbar]
  split
  · rfl
  · split
    · rfl
    · rfl

theorem applyOp_backBuf (fb : Framebuffer) (op : DrawOp) :
    (applyOp fb op).backBuf = opBack fb.indexed_colors op fb.backBuf := by
  cases op with
  | text y a b t => exact modifyBack_backBuf _ _
  | bg r c => exact modifyBack_backBuf _ _
  | fg r c => exact modifyBack_backBuf _ _
  | rev r => exact modifyBack_backBuf _ _
  | attr r m a => exact modifyBack_backBuf _ _
  | cursor p o => exact modifyBack_backBuf _ _
  | scrollbar cl tr o h => exact draw_scrollbar_fst_backBuf _ _ _ _ _

theorem applyOp_frontBuf (fb : Framebuffer) (op : DrawOp) :
    (applyOp fb op).frontBuf = fb.frontBuf := by
  cases op with
  | text y a b t => exact modifyBack_frontBuf _ _
  | bg r c => exact modifyBack_frontBuf _ _
  | fg r c => exact modifyBack_frontBuf _ _
  | rev r => exact modifyBack_frontBuf _ _
  | attr r m a => exact modifyBack_frontBuf _ _
  | cursor p o => exact modifyBack_frontBuf _ _
  | scrollbar cl tr o h => exact draw_scrollbar_fst_frontBuf _ _ _ _ _

theorem applyOp_indexed_colors (fb : Framebuffer) (op : DrawOp) :
    (applyOp fb op).indexed_colors = fb.indexed_colors := by
  cases op with
  | scrollbar cl tr o h => exact draw_scrollbar_fst_indexed_colors _ _ _ _ _
  | _ => rfl

theorem applyOp_frame_counter (fb : Framebuffer) (op : DrawOp) :
    (applyOp fb op).frame_counter = fb.frame_counter := by
  cases op with
  | scrollbar cl tr o h => exact draw_scrollbar_fst_frame_counter _ _ _ _ _
  | _ => rfl

theorem applyOp_background_fill (fb : Framebuffer) (op : DrawOp) :
    (applyOp fb op).background_fill = fb.background_fill := by
  cases op with
  | scrollbar cl tr o h => exact draw_scrollbar_fst_background_fill _ _ _ _ _
  | _ => rfl

theorem applyOp_foreground_fill (fb : Framebuffer) (op : DrawOp) :
    (applyOp fb op).foreground_fill = fb.foreground_fill := by
  cases op with
  | scrollbar cl tr o h => exact draw_scrollbar_fst_foreground_fill _ _ _ _ _
  | _ => rfl

theorem opBack_bg_size (colors : List Nat) (op : DrawOp) (bu : Buffer) :
    (opBack colors op bu).bg_bitmap.size = bu.bg_bitmap.size := by
  cases op with
  | text y a b t => rfl
  | bg r c => exact Bitmap.blend_size _ _ _
  | fg r c => rfl
  | rev r => exact reverseRect_bg_size _ _
  | attr r m a => rfl
  | cursor p o => rfl
  | scrollbar cl tr o h => exact scrollbarBack_bg_size _ _ _ _ _ _

theorem applyOp_backBuf_bg_size (fb : Framebuffer) (op : DrawOp) :
    (applyOp fb op).backBuf.bg_bitmap.size = fb.backBuf.bg_bitmap.size := by
  rw [applyOp_backBuf, opBack_bg_size]

end EditFb

namespace EditFb

theorem buffers_fst_back (fb : Framebuffer) (hp : fb.frame_counter % 2 = 0) :
    fb.buffers.1 = fb.backBuf := by
  unfold Framebuffer.backBuf Framebuffer.backIdx selBuf
  rw [hp]
  simp

theorem buffers_fst_front (fb : Framebuffer) (hp : fb.frame_counter % 2 = 1) :
    fb.buffers.1 = fb.frontBuf := by
  unfold Framebuffer.frontBuf Framebuffer.backIdx selBuf
  rw [hp]
  simp

theorem applyOp_fst_bg_size (fb : Framebuffer) (op : DrawOp) :
    (applyOp fb op).buffers.1.bg_bitmap.size = fb.buffers.1.bg_bitmap.size := by
  have hc := applyOp_frame_counter fb op
  rcases Nat.mod_two_eq_zero_or_one fb.frame_counter with hp | hp
  · rw [buffers_fst_back _ (by rw [hc, hp]), buffers_fst_back _ hp, applyOp_backBuf_bg_size]
  · rw [buffers_fst_front _ (by rw [hc, hp]), buffers_fst_front _ hp, applyOp_frontBuf]

theorem applyOps_frontBuf (ops : List DrawOp) (fb : Framebuffer) :
    (applyOps fb ops).frontBuf = fb.frontBuf :=
  foldl_pres applyOp Framebuffer.frontBuf applyOp_frontBuf ops fb

theorem applyOps_indexed_colors (ops : List DrawOp) (fb : Framebuffer) :
    (applyOps fb ops).indexed_colors = fb.indexed_colors :=
  foldl_pres applyOp Framebuffer.indexed_colors applyOp_indexed_colors ops fb

theorem applyOps_frame_counter (ops : List DrawOp) (fb : Framebuffer) :
    (applyOps fb ops).frame_counter = fb.frame_counter :=
  foldl_pres applyOp Framebuffer.frame_counter applyOp_frame_counter ops fb

theorem applyOps_background_fill (ops : List DrawOp) (fb : Framebuffer) :
    (applyOps fb ops).background_fill = fb.background_fill :=
  foldl_pres applyOp Framebuffer.background_fill applyOp_background_fill ops fb

theorem applyOps_foreground_fill (ops : List DrawOp) (fb : Framebuffer) :
    (applyOps fb ops).foreground_fill = fb.foreground_fill :=
  foldl_pres applyOp Framebuffer.foreground_fill applyOp_foreground_fill ops fb

theorem applyOps_fst_bg_size (ops : List DrawOp) (fb : Framebuffer) :
    (applyOps fb ops).buffers.1.bg_bitmap.size = fb.buffers.1.bg_bitmap.size :=
  foldl_pres applyOp (fun fb => fb.buffers.1.bg_bitmap.size) applyOp_fst_bg_size ops fb

/-- Determinism of the drawing operations: the back buffer they produce
depends only on the palette and the back buffer they start from. -/
theorem applyOps_back_congr (ops : List DrawOp) :
    ∀ fbA fbB : Framebuffer, fbA.backBuf = fbB.backBuf →
      fbA.indexed_colors = fbB.indexed_colors →
      (applyOps fbA ops).backBuf = (applyOps fbB ops).backBuf := by
  induction ops with
  | nil => intro fbA fbB h1 _; exact h1
  | cons op ops ih =>
    intro fbA fbB h1 h2
    have hstep : (applyOp fbA op).backBuf = (applyOp fbB op).backBuf := by
      rw [applyOp_backBuf, applyOp_backBuf, h1, h2]
    have hcol : (applyOp fbA op).indexed_colors = (applyOp fbB op).indexed_colors := by
      rw [applyOp_indexed_colors, applyOp_indexed_colors, h2]
    exact ih (applyOp fbA op) (applyOp fbB op) hstep hcol

theorem flip_frame_counter (fb : Framebuffer) (s : Size) :
    (fb.flip s).frame_counter = fb.frame_counter + 1 := by
  show (flipPre fb s).frame_counter + 1 = fb.frame_counter + 1
  rw [flipPre_frame_counter]

theorem flip_indexed_colors (fb : Framebuffer) (s : Size) :
    (fb.flip s).indexed_colors = fb.indexed_colors := by
  show (flipPre fb s).indexed_colors = fb.indexed_colors
  exact flipPre_indexed_colors fb s

theorem flip_background_fill (fb : Framebuffer) (s : Size) :
    (fb.flip s).background_fill = fb.background_fill := by
  show (flipPre fb s).background_fill = fb.background_fill
  exact flipPre_background_fill fb s

theorem flip_foreground_fill (fb : Framebuffer) (s : Size) :
    (fb.flip s).foreground_fill = fb.foreground_fill := by
  show (flipPre fb s).foreground_fill = fb.foreground_fill
  exact flipPre_foreground_fill fb s

theorem backBuf_succ (fb : Framebuffer) :
    Framebuffer.backBuf { fb with frame_counter := fb.frame_counter + 1 } = fb.frontBuf := by
  unfold Framebuffer.backBuf Framebuffer.frontBuf Framebuffer.backIdx selBuf
  rcases Nat.mod_two_eq_zero_or_one fb.frame_counter with hp | hp
  · have h1 : (fb.frame_counter + 1) % 2 = 1 := by omega
    simp [hp, h1]
  · have h1 : (fb.frame_counter + 1) % 2 = 0 := by omega
    simp [hp, h1]

theorem frontBuf_succ (fb : Framebuffer) :
    Framebuffer.frontBuf { fb with frame_counter := fb.frame_counter + 1 } = fb.backBuf := by
  unfold Framebuffer.backBuf Framebuffer.frontBuf Framebuffer.backIdx selBuf
  rcases Nat.mod_two_eq_zero_or_one fb.frame_counter with hp | hp
  · have h1 : (fb.frame_counter + 1) % 2 = 1 := by omega
    simp [hp, h1]
  · have h1 : (fb.frame_counter + 1) % 2 = 0 := by omega
    simp [hp, h1]

theorem flipPre_id (fb : Framebuffer) (s : Size) (h : s = fb.buffers.1.bg_bitmap.size) :
    flipPre fb s = fb := by
  unfold flipPre
  rw [if_neg (fun hn => hn h)]

end EditFb

namespace EditFb

theorem flipPre_fst_bg_size (fb : Framebuffer) (s : Size) :
    (flipPre fb s).buffers.1.bg_bitmap.size = s := by
  by_cases hc : s ≠ fb.buffers.1.bg_bitmap.size
  · rcases Nat.mod_two_eq_zero_or_one fb.frame_counter with hp | hp <;>
      simp [flipPre, hc, setBuf, selBuf, hp, poisonFront, rebuildGrids, Bitmap.new]
  · have he := not_ne_iff.mp hc
    rw [flipPre_id fb s he]
    exact he.symm

theorem modifyBack_buffers_fst (fb : Framebuffer) (f : Buffer → Buffer) :
    (modifyBack fb f).buffers.1
      = if fb.frame_counter % 2 = 0 then f fb.backBuf else fb.buffers.1 := by
  rcases Nat.mod_two_eq_zero_or_one fb.frame_counter with hp | hp <;>
    simp [modifyBack, setBuf, Framebuffer.backIdx, hp]

theorem primeBuffer_bg_size (x y : Nat) (b : Buffer) :
    (primeBuffer x y b).bg_bitmap.size = b.bg_bitmap.size := rfl

theorem flip_fst_bg_size (fb : Framebuffer) (s : Size) :
    (fb.flip s).buffers.1.bg_bitmap.size = s := by
  show (modifyBack { flipPre fb s with frame_counter := (flipPre fb s).frame_counter + 1 }
      (primeBuffer (flipPre fb s).background_fill
        (flipPre fb s).foreground_fill)).buffers.1.bg_bitmap.size = s
  rw [modifyBack_buffers_fst]
  have hfc : ({ flipPre fb s with
        frame_counter := (flipPre fb s).frame_counter + 1 } : Framebuffer).frame_counter
      = (flipPre fb s).frame_counter + 1 := rfl
  rw [hfc]
  rcases Nat.mod_two_eq_zero_or_one ((flipPre fb s).frame_counter + 1) with hp | hp
  · rw [if_pos hp, primeBuffer_bg_size]
    have hb := buffers_fst_back
      { flipPre fb s with frame_counter := (flipPre fb s).frame_counter + 1 } hp
    rw [← hb]
    exact flipPre_fst_bg_size fb s
  · rw [if_neg (by omega)]
    exact flipPre_fst_bg_size fb s

theorem poisonFront_shape (b : Buffer) : (poisonFront b).shape = b.shape := by
  simp [poisonFront, Buffer.shape, Bitmap.fill]

theorem WF_shape_eq (fb : Framebuffer) (h : fb.WF) :
    fb.buffers.1.shape = fb.buffers.2.shape := by
  obtain ⟨⟨a1, b1, c1, d1, e1, f1, g1⟩, ⟨a2, b2, c2, d2, e2, f2, g2⟩, hsz⟩ := h
  have hts : fb.buffers.1.text.size = fb.buffers.2.text.size := by rw [b1, hsz, ← b2]
  have hfs : fb.buffers.1.fg_bitmap.size = fb.buffers.2.fg_bitmap.size := by
    rw [← c1, hsz, c2]
  have has : fb.buffers.1.attributes.size = fb.buffers.2.attributes.size := by
    rw [← d1, hfs, d2]
  simp only [Buffer.shape, Prod.mk.injEq]
  refine ⟨?_, hts, ?_, hsz, ?_, hfs, ?_, has⟩
  · rw [a1, a2, hts]
  · rw [e1, e2, hsz]
  · rw [f1, f2, hfs]
  · rw [g1, g2, has]

theorem flipPre_shape_eq (fb : Framebuffer) (s : Size) (h : fb.WF) :
    (flipPre fb s).buffers.1.shape = (flipPre fb s).buffers.2.shape := by
  by_cases hc : s ≠ fb.buffers.1.bg_bitmap.size
  · rcases Nat.mod_two_eq_zero_or_one fb.frame_counter with hp | hp <;>
      simp [flipPre, hc, setBuf, selBuf, hp, poisonFront, Bitmap.fill, Buffer.shape,
        rebuildGrids, LineBuffer.new, Bitmap.new, AttributeBuffer.new, List.length_replicate]
  · have he := not_ne_iff.mp hc
    rw [flipPre_id fb s he]
    exact WF_shape_eq fb h

theorem back_front_shape_eq (fb : Framebuffer)
    (h : fb.buffers.1.shape = fb.buffers.2.shape) :
    fb.backBuf.shape = fb.frontBuf.shape := by
  unfold Framebuffer.backBuf Framebuffer.frontBuf Framebuffer.backIdx selBuf
  split <;> split
  · rfl
  · exact h
  · exact h.symm
  · rfl

theorem primeBuffer_congr (x y : Nat) (b bp : Buffer) (h : b.shape = bp.shape) :
    primeBuffer x y b = primeBuffer x y bp := by
  simp only [Buffer.shape, Prod.mk.injEq] at h
  obtain ⟨h1, h2, h3, h4, h5, h6, h7, h8⟩ := h
  unfold primeBuffer LineBuffer.fill_whitespace Bitmap.fill AttributeBuffer.resetAll
  rw [List.map_const', List.map_const', h1, h2, h3, h4, h5, h6, h7, h8]

end EditFb

namespace EditFb

theorem flip_backBuf (fb : Framebuffer) (s : Size) :
    (fb.flip s).backBuf
      = primeBuffer fb.background_fill fb.foreground_fill ((flipPre fb s).frontBuf) := by
  show (modifyBack { flipPre fb s with frame_counter := (flipPre fb s).frame_counter + 1 }
      (primeBuffer (flipPre fb s).background_fill (flipPre fb s).foreground_fill)).backBuf
    = _
  rw [modifyBack_backBuf, backBuf_succ, flipPre_background_fill, flipPre_foreground_fill]

theorem flip_frontBuf (fb : Framebuffer) (s : Size) :
    (fb.flip s).frontBuf = (flipPre fb s).backBuf := by
  show (modifyBack { flipPre fb s with frame_counter := (flipPre fb s).frame_counter + 1 }
      (primeBuffer (flipPre fb s).background_fill (flipPre fb s).foreground_fill)).frontBuf
    = _
  rw [modifyBack_frontBuf, frontBuf_succ]

theorem renderRow_self (fb : Framebuffer) (b : Buffer) (st : RenderSt) (y : Nat) :
    renderRow fb b b st y = st := by
  simp only [renderRow]
  rw [if_pos ⟨trivial, trivial, trivial, trivial⟩]

theorem foldl_const {α β : Type} (f : α → β → α) (hf : ∀ a b, f a b = a) :
    ∀ (l : List β) (a : α), l.foldl f a = a := by
  intro l
  induction l with
  | nil => intro a; rfl
  | cons x xs ih => intro a; rw [List.foldl_cons, hf, ih]

theorem render_eq_nil_of_front_eq_back (fb : Framebuffer)
    (h : fb.frontBuf = fb.backBuf) : fb.render = [] := by
  simp only [Framebuffer.render]
  rw [h]
  rw [foldl_const (renderRow fb fb.backBuf fb.backBuf)
    (fun st y => renderRow_self fb fb.backBuf st y)]
  simp

/-- Claim C6: when two consecutive frames are identical — `flip(size)`,
a sequence of draw operations, `render`, then `flip(size)`, the same
operations, `render` — the second `render` returns the empty byte string:
every row of the back buffer compares equal to the front buffer and is
skipped, and since the cursors are also equal no cursor sequence is
emitted either (`render` reads but does not modify the buffers, so it is
dropped from the state chain). -/
theorem C6_render_idempotent_on_identical_frames (fb0 : Framebuffer) (sz : Size)
    (ops : List DrawOp) (hwf : fb0.WF) :
    (applyOps ((applyOps (fb0.flip sz) ops).flip sz) ops).render = [] := by
  set g1 := applyOps (fb0.flip sz) ops with hg1
  have hsz : g1.buffers.1.bg_bitmap.size = sz := by
    rw [hg1, applyOps_fst_bg_size, flip_fst_bg_size]
  have hpre2 : flipPre g1 sz = g1 := flipPre_id _ _ hsz.symm
  have hfront : (applyOps (g1.flip sz) ops).frontBuf = g1.backBuf := by
    rw [applyOps_frontBuf, flip_frontBuf, hpre2]
  have hfillb : g1.background_fill = fb0.background_fill := by
    rw [hg1, applyOps_background_fill, flip_background_fill]
  have hfillf : g1.foreground_fill = fb0.foreground_fill := by
    rw [hg1, applyOps_foreground_fill, flip_foreground_fill]
  have hcols : g1.indexed_colors = fb0.indexed_colors := by
    rw [hg1, applyOps_indexed_colors, flip_indexed_colors]
  have hshape : (flipPre fb0 sz).backBuf.shape = (flipPre fb0 sz).frontBuf.shape :=
    back_front_shape_eq _ (flipPre_shape_eq fb0 sz hwf)
  have hbackflip : (g1.flip sz).backBuf = (fb0.flip sz).backBuf := by
    rw [flip_backBuf, flip_backBuf, hpre2, hfillb, hfillf]
    rw [hg1, applyOps_frontBuf, flip_frontBuf]
    exact primeBuffer_congr _ _ _ _ hshape
  have hcolsflip : (g1.flip sz).indexed_colors = (fb0.flip sz).indexed_colors := by
    rw [flip_indexed_colors, flip_indexed_colors, hcols]
  have hback : (applyOps (g1.flip sz) ops).backBuf = g1.backBuf := by
    rw [applyOps_back_congr ops (g1.flip sz) (fb0.flip sz) hbackflip hcolsflip, ← hg1]
  apply render_eq_nil_of_front_eq_back
  rw [hfront, hback]

/-- Claim C6 witness: a concrete pair of identical frames (one
`replace_text` per frame on a 2×1 buffer) whose second render is
empty. -/
theorem C6_witness :
    (applyOps ((applyOps (Framebuffer.new.flip ⟨2, 1⟩) [DrawOp.text 0 0 2 [65]]).flip ⟨2, 1⟩)
      [DrawOp.text 0 0 2 [65]]).render = [] :=
  C6_render_idempotent_on_identical_frames Framebuffer.new ⟨2, 1⟩ [DrawOp.text 0 0 2 [65]]
    (by decide)

end EditFb
